import Mathlib

/-!
Verification development for the dartify transpiler (TypeScript d.ts to Dart
bindings).  The definitions below are a shallow embedding, translated from the
TypeScript sources:

  * the Type IR family mirrors src/ir/type.ts and src/ir/literal.ts: the
    source models IRType as one record whose optional fields are populated
    per kind, so we use a single-constructor inductive with Option fields;
  * the type resolver mirrors src/type/parser/type.ts (class TypeParser with
    its text-and-depth keyed memo cache) together with its handler modules
    (unions.ts, intersection.ts, tuple.ts, array.ts, literals.ts,
    typeRefernce.ts, function.ts, typeLiterals.ts, restType.ts); the mutable
    singleton state (TypeParser.cache plus the transpilerContext registry of
    hoisted literals and the anonymous-interface counter) is threaded
    explicitly as a state value;
  * the hoisting visitor mirrors the TypeVisitor class (hoistLiteral,
    canonicalizeLiteral, visit, visitLiteralChildren, visitParameters,
    visitDeclaration);
  * the declaration transformer mirrors the DeclarationTransformer class
    (applyFunctionOverloads, applyClassMethodLikeOverloads,
    applyInterfaceMethodLikeOverloads, applyLiteralToInterface, transform);
  * the emitter mirrors src/engine/emitter/old/type/emit.ts (emitType) and
    src/engine/emitter/old/interface.ts (emitInterface);
  * the declaration pass mirrors src/engine/passes/declarationPass.ts
    (walkStatements, processStatementDeclaration, processModuleDeclaration).

JavaScript Map objects are modelled as insertion-ordered association lists,
and JSON.stringify hashing is modelled by an explicit deterministic
serializer.
-/

/-- Closed kind tag of a Type IR node, from the TypeKind enum of
src/ir/type.ts. -/
inductive TypeKind where
  | string | number | bigInt | boolean | undefined | null | void | any
  | unknown | never
  | array | tuple | object | function | union | intersection
  | stringLiteral | numberLiteral | booleanLiteral
  | typeLiteral
  | typeReference
deriving DecidableEq

/-- String value of each TypeKind enum member, as declared in src/ir/type.ts
(the enum is string-valued and those strings are stored in the name field of
many IR nodes). -/
def TypeKind.str : TypeKind → String
  | .string => "string"
  | .number => "number"
  | .bigInt => "bigInt"
  | .boolean => "boolean"
  | .undefined => "undefined"
  | .null => "null"
  | .void => "void"
  | .any => "any"
  | .unknown => "unknown"
  | .never => "never"
  | .array => "array"
  | .tuple => "tuple"
  | .object => "object"
  | .function => "function"
  | .union => "union"
  | .intersection => "intersection"
  | .stringLiteral => "stringLiteral"
  | .numberLiteral => "numberLiteral"
  | .booleanLiteral => "booleanLiteral"
  | .typeLiteral => "typeLiteral"
  | .typeReference => "typeReference"

/-- Literal payload of a literal type (string, numeric, bigint or boolean
value), modelling the literalValue field of IRType.  Numeric payloads are
modelled over Int (the claims under study never depend on non-integral
values). -/
inductive LitVal where
  | str (s : String)
  | num (n : Int)
  | bigint (n : Int)
  | bool (b : Bool)
deriving DecidableEq

mutual

/-- Type IR node, from src/ir/type.ts.  The source declares one interface
with a kind tag, a name, a nullability flag, and optional per-kind payload
fields; this constructor carries exactly those fields in declaration
order. -/
inductive IRType where
  | mk (kind : TypeKind) (name : String) (isNullable : Bool)
       (isOptional : Option Bool)
       (isRestParameter : Option Bool)
       (genericArgs : Option (List IRType))
       (unionTypes : Option (List IRType))
       (tupleTypes : Option (List IRType))
       (intersectionTypes : Option (List IRType))
       (elementType : Option IRType)
       (objectLiteral : Option IRLiteral)
       (parameters : Option (List IRParameter))
       (returnType : Option IRType)
       (literalValue : Option LitVal)

/-- Function-type parameter shape, from src/ir/type.ts (IRParameter). -/
inductive IRParameter where
  | mk (name : String) (type : IRType) (isOptional : Bool)
       (isRestParameter : Bool)

/-- Anonymous record (object literal) shape, from src/ir/literal.ts
(IRLiteral): properties, methods, constructors, accessors and index
signatures. -/
inductive IRLiteral where
  | mk (properties : List IRProperties) (methods : List IRMethod)
       (constructors : List IRMethod)
       (getAccessors : List IRGetAccessor)
       (setAccessors : List IRSetAccessor)
       (indexSignatures : List IRIndexSignatures)

/-- Property shape, from src/ir/literal.ts (IRProperties). -/
inductive IRProperties where
  | mk (name : String) (type : IRType) (isOptional : Bool)
       (isReadonly : Bool) (isStatic : Bool)

/-- Method shape, from src/ir/literal.ts (IRMethod); the return type is
optional in the source interface. -/
inductive IRMethod where
  | mk (name : String) (parameters : List IRParameter)
       (returnType : Option IRType) (isOptional : Bool) (isStatic : Bool)

/-- Get-accessor shape, from src/ir/literal.ts (IRGetAccessor). -/
inductive IRGetAccessor where
  | mk (name : String) (type : IRType) (isStatic : Bool)

/-- Set-accessor shape, from src/ir/literal.ts (IRSetAccessor). -/
inductive IRSetAccessor where
  | mk (name : String) (parameter : IRParameter) (isStatic : Bool)

/-- Index-signature shape, from src/ir/literal.ts (IRIndexSignatures). -/
inductive IRIndexSignatures where
  | mk (keyType : IRType) (valueType : IRType) (isReadonly : Bool)

end

/-- Kind tag of a type node. -/
def IRType.kind : IRType → TypeKind
  | .mk k _ _ _ _ _ _ _ _ _ _ _ _ _ => k

/-- Name field of a type node. -/
def IRType.name : IRType → String
  | .mk _ n _ _ _ _ _ _ _ _ _ _ _ _ => n

/-- Nullability flag of a type node. -/
def IRType.isNullable : IRType → Bool
  | .mk _ _ nb _ _ _ _ _ _ _ _ _ _ _ => nb

/-- Optional-element flag of a type node. -/
def IRType.isOptional : IRType → Option Bool
  | .mk _ _ _ io _ _ _ _ _ _ _ _ _ _ => io

/-- Rest-element flag of a type node. -/
def IRType.isRestParameter : IRType → Option Bool
  | .mk _ _ _ _ ir _ _ _ _ _ _ _ _ _ => ir

/-- Generic-argument list of a type-reference node. -/
def IRType.genericArgs : IRType → Option (List IRType)
  | .mk _ _ _ _ _ ga _ _ _ _ _ _ _ _ => ga

/-- Member list of a union node. -/
def IRType.unionTypes : IRType → Option (List IRType)
  | .mk _ _ _ _ _ _ ut _ _ _ _ _ _ _ => ut

/-- Element list of a tuple node. -/
def IRType.tupleTypes : IRType → Option (List IRType)
  | .mk _ _ _ _ _ _ _ tt _ _ _ _ _ _ => tt

/-- Member list of an intersection node. -/
def IRType.intersectionTypes : IRType → Option (List IRType)
  | .mk _ _ _ _ _ _ _ _ it _ _ _ _ _ => it

/-- Element type of an array node. -/
def IRType.elementType : IRType → Option IRType
  | .mk _ _ _ _ _ _ _ _ _ et _ _ _ _ => et

/-- Record payload of a type-literal node. -/
def IRType.objectLiteral : IRType → Option IRLiteral
  | .mk _ _ _ _ _ _ _ _ _ _ ol _ _ _ => ol

/-- Parameter list of a function-type node. -/
def IRType.parameters : IRType → Option (List IRParameter)
  | .mk _ _ _ _ _ _ _ _ _ _ _ ps _ _ => ps

/-- Return type of a function-type node. -/
def IRType.returnType : IRType → Option IRType
  | .mk _ _ _ _ _ _ _ _ _ _ _ _ rt _ => rt

/-- Literal payload of a literal-type node. -/
def IRType.literalValue : IRType → Option LitVal
  | .mk _ _ _ _ _ _ _ _ _ _ _ _ _ lv => lv

/-- Builder for the bare three-field object literals the resolver creates
for primitives and fallbacks, e.g. the kind-name-isNullable records of
TypeParser.parseType. -/
def IRType.base (k : TypeKind) (n : String) (nb : Bool) : IRType :=
  .mk k n nb none none none none none none none none none none none

/-- The exact record the resolver returns for unsupported syntax, missing
type nodes and exceeded recursion depth: kind Any, name "any" (the string
value of TypeKind.Any), not nullable. -/
def anyFallback : IRType := IRType.base .any "any" false

/-- Assignment res.isOptional = true, as performed on parsed tuple
elements. -/
def IRType.setOptional : IRType → IRType
  | .mk k n nb _ ir ga ut tt it et ol ps rt lv =>
      .mk k n nb (some true) ir ga ut tt it et ol ps rt lv

/-- Assignment res.isRestParameter = true, as performed by handleRestType
and on rest tuple elements. -/
def IRType.setRest : IRType → IRType
  | .mk k n nb io _ ga ut tt it et ol ps rt lv =>
      .mk k n nb io (some true) ga ut tt it et ol ps rt lv

/-- Name of a parameter shape. -/
def IRParameter.name : IRParameter → String
  | .mk n _ _ _ => n

/-- Type of a parameter shape. -/
def IRParameter.type : IRParameter → IRType
  | .mk _ t _ _ => t

/-- Optional flag of a parameter shape. -/
def IRParameter.isOptional : IRParameter → Bool
  | .mk _ _ io _ => io

/-- Properties group of a record shape. -/
def IRLiteral.properties : IRLiteral → List IRProperties
  | .mk ps _ _ _ _ _ => ps

/-- Methods group of a record shape. -/
def IRLiteral.methods : IRLiteral → List IRMethod
  | .mk _ ms _ _ _ _ => ms

/-- Constructors group of a record shape. -/
def IRLiteral.constructors : IRLiteral → List IRMethod
  | .mk _ _ cs _ _ _ => cs

/-- Get-accessors group of a record shape. -/
def IRLiteral.getAccessors : IRLiteral → List IRGetAccessor
  | .mk _ _ _ gs _ _ => gs

/-- Set-accessors group of a record shape. -/
def IRLiteral.setAccessors : IRLiteral → List IRSetAccessor
  | .mk _ _ _ _ ss _ => ss

/-- Index-signatures group of a record shape. -/
def IRLiteral.indexSignatures : IRLiteral → List IRIndexSignatures
  | .mk _ _ _ _ _ ix => ix

/-- Name of a property shape. -/
def IRProperties.name : IRProperties → String
  | .mk n _ _ _ _ => n

/-- Type of a property shape. -/
def IRProperties.type : IRProperties → IRType
  | .mk _ t _ _ _ => t

/-- Name of a method shape. -/
def IRMethod.name : IRMethod → String
  | .mk n _ _ _ _ => n

/-- Parameter list of a method shape. -/
def IRMethod.parameters : IRMethod → List IRParameter
  | .mk _ ps _ _ _ => ps

/-- Return type of a method shape. -/
def IRMethod.returnType : IRMethod → Option IRType
  | .mk _ _ rt _ _ => rt

/-- Name of a get-accessor shape. -/
def IRGetAccessor.name : IRGetAccessor → String
  | .mk n _ _ => n

/-- Name of a set-accessor shape. -/
def IRSetAccessor.name : IRSetAccessor → String
  | .mk n _ _ => n

/-- Serialization of a literal payload, used by the canonical structural
serializer below. -/
def LitVal.ser : LitVal → String
  | .str s => "\"" ++ s ++ "\""
  | .num n => toString n
  | .bigint n => toString n
  | .bool b => toString b

mutual

/-- Canonical deterministic serialization of a type node, modelling the
JSON.stringify hashing used by TypeVisitor.hoistLiteral and
handleTypeLiterals: fields are emitted in declaration order and absent
(undefined) optional fields are skipped, exactly as JSON.stringify skips
undefined members. -/
def serType : IRType → String
  | .mk k n nb io ir ga ut tt it et ol ps rt lv =>
      "\x7b" ++ "kind:" ++ k.str ++ ",name:" ++ n ++ ",isNullable:"
        ++ toString nb
        ++ serOptBool "isOptional" io
        ++ serOptBool "isRestParameter" ir
        ++ serOptList "genericArgs" ga
        ++ serOptList "unionTypes" ut
        ++ serOptList "tupleTypes" tt
        ++ serOptList "intersectionTypes" it
        ++ (match et with
            | none => ""
            | some t => ",elementType:" ++ serType t)
        ++ (match ol with
            | none => ""
            | some l => ",objectLiteral:" ++ serLit l)
        ++ (match ps with
            | none => ""
            | some l => ",parameters:" ++ serParams l)
        ++ (match rt with
            | none => ""
            | some t => ",returnType:" ++ serType t)
        ++ (match lv with
            | none => ""
            | some v => ",literalValue:" ++ v.ser)
        ++ "\x7d"
termination_by structural t => t

/-- Serialization of an optional boolean field. -/
def serOptBool (field : String) : Option Bool → String
  | none => ""
  | some b => "," ++ field ++ ":" ++ toString b

/-- Serialization of an optional list-of-types field. -/
def serOptList (field : String) : Option (List IRType) → String
  | none => ""
  | some l => "," ++ field ++ ":[" ++ serTypeList l ++ "]"
termination_by structural o => o

/-- Serialization of a list of type nodes. -/
def serTypeList : List IRType → String
  | [] => ""
  | [t] => serType t
  | t :: ts => serType t ++ "," ++ serTypeList ts
termination_by structural l => l

/-- Serialization of a record shape. -/
def serLit : IRLiteral → String
  | .mk props meths ctors gets sets idxs =>
      "\x7b" ++ "properties:[" ++ serProps props
        ++ "],methods:[" ++ serMeths meths
        ++ "],constructors:[" ++ serMeths ctors
        ++ "],getAccessors:[" ++ serGets gets
        ++ "],setAccessors:[" ++ serSets sets
        ++ "],indexSignatures:[" ++ serIdxs idxs
        ++ "]" ++ "\x7d"
termination_by structural l => l

/-- Serialization of a property list. -/
def serProps : List IRProperties → String
  | [] => ""
  | .mk n t io ro st :: ps =>
      "\x7b" ++ n ++ ":" ++ serType t ++ "," ++ toString io ++ ","
        ++ toString ro ++ "," ++ toString st ++ "\x7d" ++ serProps ps
termination_by structural l => l

/-- Serialization of a method list. -/
def serMeths : List IRMethod → String
  | [] => ""
  | .mk n params rt io st :: ms =>
      "\x7b" ++ n ++ ":(" ++ serParams params ++ ")"
        ++ (match rt with
            | none => ""
            | some t => "->" ++ serType t)
        ++ "," ++ toString io ++ "," ++ toString st ++ "\x7d" ++ serMeths ms
termination_by structural l => l

/-- Serialization of one parameter shape. -/
def serParam : IRParameter → String
  | .mk n t io ir =>
      "\x7b" ++ n ++ ":" ++ serType t ++ "," ++ toString io ++ ","
        ++ toString ir ++ "\x7d"
termination_by structural p => p

/-- Serialization of a parameter list. -/
def serParams : List IRParameter → String
  | [] => ""
  | p :: ps => serParam p ++ serParams ps
termination_by structural l => l

/-- Serialization of a get-accessor list. -/
def serGets : List IRGetAccessor → String
  | [] => ""
  | .mk n t st :: gs =>
      "\x7b" ++ n ++ ":" ++ serType t ++ "," ++ toString st ++ "\x7d"
        ++ serGets gs
termination_by structural l => l

/-- Serialization of a set-accessor list. -/
def serSets : List IRSetAccessor → String
  | [] => ""
  | .mk n p st :: ss =>
      "\x7b" ++ n ++ ":(" ++ serParam p ++ ")," ++ toString st ++ "\x7d"
        ++ serSets ss
termination_by structural l => l

/-- Serialization of an index-signature list. -/
def serIdxs : List IRIndexSignatures → String
  | [] => ""
  | .mk kt vt ro :: ix =>
      "\x7b" ++ serType kt ++ ":" ++ serType vt ++ "," ++ toString ro
        ++ "\x7d" ++ serIdxs ix
termination_by structural l => l

end

/-- Literal payload of a LiteralType syntax node, covering the literal kinds
handled by handleLiteralType in src/type/parser/literals.ts: string literals
(stored without their quotes), template literals, numeric and bigint
literals, prefix-unary (signed) numeric and bigint literals, the boolean
keywords and the null literal; otherLit stands for any other literal
kind (the default branch). -/
inductive LitSyntax where
  | strLit (s : String)
  | templateLit (s : String)
  | numLit (n : Int)
  | bigintLit (n : Int)
  | trueLit
  | falseLit
  | nullLit
  | prefixUnaryNum (minus : Bool) (n : Int)
  | prefixUnaryBigint (minus : Bool) (n : Int)
  | otherLit (text : String)

mutual

/-- Type-syntax node, modelling exactly the ts-morph TypeNode kinds the
resolver TypeParser.parseType dispatches on (src/type/parser/type.ts):
primitive keywords, literal types, unions, tuples, intersections, array
types, parenthesized types, type references, function types, type literals
and rest types; namedTupleMember and optionalType are the tuple-element
node kinds inspected by handleTupleType; otherKind covers every unsupported
syntax kind (the default branch of the switch) and carries the source
text. -/
inductive TypeSyntax where
  | stringKeyword
  | numberKeyword
  | bigintKeyword
  | booleanKeyword
  | undefinedKeyword
  | nullKeyword
  | voidKeyword
  | anyKeyword
  | unknownKeyword
  | neverKeyword
  | objectKeyword
  | literalType (lit : LitSyntax)
  | unionType (members : List TypeSyntax)
  | tupleType (elems : List TypeSyntax)
  | intersectionType (members : List TypeSyntax)
  | arrayType (elem : TypeSyntax)
  | parenthesizedType (inner : TypeSyntax)
  | typeReference (name : String) (typeArgs : List TypeSyntax)
  | functionType (params : List ParamSyntax)
      (returnTypeNode : Option TypeSyntax)
  | typeLiteral (properties : List PropSyntax) (methods : List MethodSyntax)
      (constructSignatures : List CtorSyntax)
      (getAccessors : List GetAccSyntax)
      (setAccessors : List SetAccSyntax)
      (indexSignatures : List IndexSigSyntax)
  | restType (inner : TypeSyntax)
  | namedTupleMember (name : String) (question : Bool) (dots : Bool)
      (ty : TypeSyntax)
  | optionalType (inner : TypeSyntax)
  | otherKind (text : String)

/-- Parameter declaration syntax: name, whether the name node is the `this`
keyword, the optional type annotation, the optional flag and the rest
flag. -/
inductive ParamSyntax where
  | mk (name : String) (isThis : Bool) (typeNode : Option TypeSyntax)
       (isOptional : Bool) (isRest : Bool)

/-- Property-signature syntax inside a type literal. -/
inductive PropSyntax where
  | mk (name : String) (typeNode : Option TypeSyntax) (isReadonly : Bool)
       (isOptional : Bool)

/-- Method-signature syntax inside a type literal. -/
inductive MethodSyntax where
  | mk (name : String) (params : List ParamSyntax)
       (returnTypeNode : Option TypeSyntax) (isOptional : Bool)

/-- Construct-signature syntax inside a type literal. -/
inductive CtorSyntax where
  | mk (params : List ParamSyntax) (returnTypeNode : Option TypeSyntax)

/-- Get-accessor syntax inside a type literal. -/
inductive GetAccSyntax where
  | mk (name : String) (returnTypeNode : Option TypeSyntax)

/-- Set-accessor syntax inside a type literal; the source always reads the
first parameter of the accessor. -/
inductive SetAccSyntax where
  | mk (name : String) (param : ParamSyntax)

/-- Index-signature syntax inside a type literal. -/
inductive IndexSigSyntax where
  | mk (keyTypeNode : Option TypeSyntax) (returnTypeNode : Option TypeSyntax)
       (isReadonly : Bool)

end

/-- Source text of a literal payload, for the purposes of node.getText(). -/
def LitSyntax.text : LitSyntax → String
  | .strLit s => "\"" ++ s ++ "\""
  | .templateLit s => "\"" ++ s ++ "\""
  | .numLit n => toString n
  | .bigintLit n => toString n ++ "n"
  | .trueLit => "true"
  | .falseLit => "false"
  | .nullLit => "null"
  | .prefixUnaryNum minus n => (if minus then "-" else "+") ++ toString n
  | .prefixUnaryBigint minus n => (if minus then "-" else "+") ++ toString n ++ "n"
  | .otherLit t => t

mutual

/-- Source text of a type-syntax node, modelling ts-morph node.getText():
the parser uses it both for the memo-cache key and for the textual member
checks of handleIntersectionType. -/
def synText : TypeSyntax → String
  | .stringKeyword => "string"
  | .numberKeyword => "number"
  | .bigintKeyword => "bigint"
  | .booleanKeyword => "boolean"
  | .undefinedKeyword => "undefined"
  | .nullKeyword => "null"
  | .voidKeyword => "void"
  | .anyKeyword => "any"
  | .unknownKeyword => "unknown"
  | .neverKeyword => "never"
  | .objectKeyword => "object"
  | .literalType lit => lit.text
  | .unionType members => synTextSep " | " members
  | .tupleType elems => "[" ++ synTextSep ", " elems ++ "]"
  | .intersectionType members => synTextSep " & " members
  | .arrayType elem => synText elem ++ "[]"
  | .parenthesizedType inner => "(" ++ synText inner ++ ")"
  | .typeReference n args =>
      n ++ (match args with
            | [] => ""
            | _ => "<" ++ synTextSep ", " args ++ ">")
  | .functionType params ret =>
      "(" ++ synTextParams params ++ ") => "
        ++ (match ret with | none => "void" | some r => synText r)
  | .typeLiteral props meths ctors gets sets idxs =>
      "\x7b " ++ synTextProps props ++ synTextMeths meths
        ++ synTextCtors ctors ++ synTextGets gets ++ synTextSets sets
        ++ synTextIdxs idxs ++ " \x7d"
  | .restType inner => "..." ++ synText inner
  | .namedTupleMember n q dots ty =>
      (if dots then "..." else "") ++ n ++ (if q then "?" else "") ++ ": "
        ++ synText ty
  | .optionalType inner => synText inner ++ "?"
  | .otherKind t => t

/-- Source text of a separated list of type nodes. -/
def synTextSep (sep : String) : List TypeSyntax → String
  | [] => ""
  | [t] => synText t
  | t :: ts => synText t ++ sep ++ synTextSep sep ts

/-- Source text of a parameter list. -/
def synTextParams : List ParamSyntax → String
  | [] => ""
  | [.mk n th o io _] =>
      (if th then "this" else n) ++ (if io then "?" else "") ++ ": "
        ++ (match o with | none => "any" | some t => synText t)
  | .mk n th o io _ :: ps =>
      (if th then "this" else n) ++ (if io then "?" else "") ++ ": "
        ++ (match o with | none => "any" | some t => synText t) ++ ", "
        ++ synTextParams ps

/-- Source text of property signatures. -/
def synTextProps : List PropSyntax → String
  | [] => ""
  | .mk n o ro io :: ps =>
      (if ro then "readonly " else "") ++ n ++ (if io then "?" else "")
        ++ ": " ++ (match o with | none => "any" | some t => synText t)
        ++ "; " ++ synTextProps ps

/-- Source text of method signatures. -/
def synTextMeths : List MethodSyntax → String
  | [] => ""
  | .mk n params ret io :: ms =>
      n ++ (if io then "?" else "") ++ "(" ++ synTextParams params ++ ")"
        ++ ": " ++ (match ret with | none => "any" | some t => synText t)
        ++ "; " ++ synTextMeths ms

/-- Source text of construct signatures. -/
def synTextCtors : List CtorSyntax → String
  | [] => ""
  | .mk params ret :: cs =>
      "new (" ++ synTextParams params ++ "): "
        ++ (match ret with | none => "any" | some t => synText t) ++ "; "
        ++ synTextCtors cs

/-- Source text of get accessors. -/
def synTextGets : List GetAccSyntax → String
  | [] => ""
  | .mk n ret :: gs =>
      "get " ++ n ++ "(): "
        ++ (match ret with | none => "any" | some t => synText t) ++ "; "
        ++ synTextGets gs

/-- Source text of set accessors. -/
def synTextSets : List SetAccSyntax → String
  | [] => ""
  | .mk n (.mk pn _ o _ _) :: ss =>
      "set " ++ n ++ "(" ++ pn ++ ": "
        ++ (match o with | none => "any" | some t => synText t) ++ "); "
        ++ synTextSets ss

/-- Source text of index signatures. -/
def synTextIdxs : List IndexSigSyntax → String
  | [] => ""
  | .mk k v _ :: ix =>
      "[key: " ++ (match k with | none => "any" | some t => synText t)
        ++ "]: " ++ (match v with | none => "any" | some t => synText t)
        ++ "; " ++ synTextIdxs ix

end

/-- Lookup in a JavaScript Map modelled as an insertion-ordered association
list (Map.prototype.get, none for a missing key). -/
def jsMapGet {κ α : Type} [BEq κ] (m : List (κ × α)) (k : κ) : Option α :=
  match m.find? (fun e => e.1 == k) with
  | some e => some e.2
  | none => none

/-- Update of a JavaScript Map modelled as an association list
(Map.prototype.set: replace the value of an existing key in place, else
append the new entry at the end). -/
def jsMapSet {κ α : Type} [BEq κ] (m : List (κ × α)) (k : κ) (v : α) :
    List (κ × α) :=
  match m with
  | [] => [(k, v)]
  | e :: es => if e.1 == k then (k, v) :: es else e :: jsMapSet es k v

/-- Shared mutable resolver state: the memo cache of the TypeParser
singleton (keyed in the source by the string typeNode.getText() plus
"_depth_" plus the depth, modelled here by the pair of the node text and
the depth, which determines the same key string), and the
transpilerContext singleton of src/context.ts with its parseLiterals flag,
its hoistedLiterals table (serialized shape to generated name) and its
anonInterfaceCount counter. -/
structure PState where
  cache : List ((String × Nat) × IRType)
  parseLiterals : Bool
  hoistedLiterals : List (String × String)
  anonInterfaceCount : Nat

/-- Initial resolver state: empty cache, parseLiterals defaulting to true
and anonInterfaceCount starting at 0, as in the TranspilerContext
constructor. -/
def initPState : PState :=
  { cache := [], parseLiterals := true, hoistedLiterals := [],
    anonInterfaceCount := 0 }

/-- Resolution of a literal type node, from handleLiteralType in
src/type/parser/literals.ts: prefix-unary numeric and bigint literals are
sign-adjusted, plain literals map to their literal kinds, and any other
literal kind degrades to Any named "dynamic". -/
def handleLiteralType (lit : LitSyntax) (_depth : Nat) : IRType :=
  match lit with
  | .prefixUnaryNum minus n =>
      .mk .numberLiteral "double" false none none none none none none none
        none none none (some (.num (if minus then -n else n)))
  | .prefixUnaryBigint minus n =>
      .mk .numberLiteral "BigInt" false none none none none none none none
        none none none (some (.bigint (if minus then -n else n)))
  | .strLit s =>
      .mk .stringLiteral "String" false none none none none none none none
        none none none (some (.str s))
  | .templateLit s =>
      .mk .stringLiteral "String" false none none none none none none none
        none none none (some (.str s))
  | .numLit n =>
      .mk .numberLiteral "double" false none none none none none none none
        none none none (some (.num n))
  | .trueLit =>
      .mk .booleanLiteral "bool" false none none none none none none none
        none none none (some (.bool true))
  | .falseLit =>
      .mk .booleanLiteral "bool" false none none none none none none none
        none none none (some (.bool false))
  | .bigintLit n =>
      .mk .numberLiteral "BigInt" false none none none none none none none
        none none none (some (.bigint n))
  | _ => IRType.base .any "dynamic" false

/-- Null-or-undefined member test of src/type/parser/unions.ts: an
undefined keyword node, or a literal type whose literal is the null
keyword. -/
def isNullOrUndefined : TypeSyntax → Bool
  | .undefinedKeyword => true
  | .literalType .nullLit => true
  | _ => false

/-- Whether a syntax node is a TypeLiteral node (the memo cache of
TypeParser.parseType is bypassed for those). -/
def isTypeLiteralSyn : TypeSyntax → Bool
  | .typeLiteral _ _ _ _ _ _ => true
  | _ => false

/-- Registry interaction at the end of handleTypeLiterals
(src/type/parser/typeLiterals.ts): the freshly built TypeLiteral node is
serialized and looked up in the transpilerContext hoisted-literal table; a
hit reuses the existing generated name, a miss allocates
AnonInterface$count, registers the serialized shape and increments the
counter; the function returns the unhoisted node when the parseLiterals
flag is set and the type reference otherwise. -/
def hoistRecord (val : IRType) (st : PState) : IRType × PState :=
  let parseLits := st.parseLiterals
  let count := st.anonInterfaceCount
  match jsMapGet st.hoistedLiterals (serType val) with
  | some existingName =>
      let res : IRType :=
        .mk .typeReference existingName false none none none none none none
          none none none none none
      (if !parseLits then res else val, st)
  | none =>
      let newName := "AnonInterface$" ++ toString count
      let res : IRType :=
        .mk .typeReference newName false none none none none none none
          none none none none none
      let st' : PState :=
        { st with
          hoistedLiterals := jsMapSet st.hoistedLiterals (serType val) newName,
          anonInterfaceCount := count + 1 }
      (if !parseLits then res else val, st')

/-- Size bound used for the termination measure of the resolver: filtering
a list never increases its sizeOf. -/
theorem sizeOf_filter_le {α : Type} [SizeOf α] (f : α → Bool)
    (l : List α) : sizeOf (l.filter f) ≤ sizeOf l := by
  induction l with
  | nil => simp [List.filter]
  | cons a l ih =>
      simp only [List.filter]
      cases f a <;> simp <;> omega

set_option maxHeartbeats 1600000
set_option maxRecDepth 8000

/-- Spread-update of a node with its isNullable OR-ed against a recorded
flag, as in the single-member collapse of handleIntersectionType. -/
def IRType.orNullable : IRType → Bool → IRType
  | .mk k n nb io ir ga ut tt it et ol ps rt lv, b =>
      .mk k n (nb || b) io ir ga ut tt it et ol ps rt lv

mutual

/-- Resolver entry point, from TypeParser.parseType of
src/type/parser/type.ts: a missing type node yields Any; otherwise the memo
cache is consulted (except for TypeLiteral nodes), the depth ceiling is
enforced, the syntax kind is dispatched, and the result is cached.  The
undefined check and the cached path are split across parseType,
parseTypeNode and parseTypeUncached; together they are the body of the one
source method. -/
def parseType (o : Option TypeSyntax) (depth : Nat) (st : PState) :
    IRType × PState :=
  match o with
  | none => (IRType.base .any "any" false, st)
  | some tn => parseTypeNode tn depth st
termination_by 8 * sizeOf o

/-- Cache consultation step of TypeParser.parseType: a cache hit is
returned unless the node is a TypeLiteral. -/
def parseTypeNode (tn : TypeSyntax) (depth : Nat) (st : PState) :
    IRType × PState :=
  let cacheKey : String × Nat := (synText tn, depth)
  match jsMapGet st.cache cacheKey with
  | some cached =>
      if isTypeLiteralSyn tn then parseTypeUncached tn depth st
      else (cached, st)
  | none => parseTypeUncached tn depth st
termination_by 8 * sizeOf tn + 6

/-- Depth-guard and caching step of TypeParser.parseType: beyond depth 15
the Any fallback is produced and cached; otherwise the switch result is
cached under the text-and-depth key and returned. -/
def parseTypeUncached (tn : TypeSyntax) (depth : Nat) (st : PState) :
    IRType × PState :=
  let cacheKey : String × Nat := (synText tn, depth)
  if 15 < depth then
    let result := IRType.base .any "any" false
    (result, { st with cache := jsMapSet st.cache cacheKey result })
  else
    let (result, st1) := parseTypeSwitch tn depth st
    (result, { st1 with cache := jsMapSet st1.cache cacheKey result })
termination_by 8 * sizeOf tn + 5

/-- Kind dispatch of TypeParser.parseType: primitives map to their kinds,
undefined and null keywords map to a nullable Undefined node, complex kinds
go to their handlers, and every unsupported kind degrades to Any. -/
def parseTypeSwitch (tn : TypeSyntax) (depth : Nat) (st : PState) :
    IRType × PState :=
  match tn with
  | .stringKeyword => (IRType.base .string "string" false, st)
  | .numberKeyword => (IRType.base .number "number" false, st)
  | .bigintKeyword => (IRType.base .bigInt "bigInt" false, st)
  | .booleanKeyword => (IRType.base .boolean "boolean" false, st)
  | .undefinedKeyword => (IRType.base .undefined "undefined" true, st)
  | .nullKeyword => (IRType.base .undefined "undefined" true, st)
  | .voidKeyword => (IRType.base .void "void" false, st)
  | .anyKeyword => (IRType.base .any "any" false, st)
  | .unknownKeyword => (IRType.base .any "any" false, st)
  | .neverKeyword => (IRType.base .never "Never" false, st)
  | .objectKeyword => (IRType.base .object "Object" false, st)
  | .literalType lit => (handleLiteralType lit depth, st)
  | .unionType members => handleUnionType members depth st
  | .tupleType elems => handleTupleType elems depth st
  | .intersectionType members => handleIntersectionType members depth st
  | .arrayType elem => handleDirectArrayType elem depth st
  | .parenthesizedType inner => parseType (some inner) depth st
  | .typeReference n args => handleTypeReferences n args depth st
  | .functionType ps ret => handleFunctionTypes ps ret depth st
  | .typeLiteral a b c d e f => handleTypeLiterals a b c d e f depth st
  | .restType inner => handleRestType inner depth st
  | .namedTupleMember _ _ _ _ => (IRType.base .any "any" false, st)
  | .optionalType _ => (IRType.base .any "any" false, st)
  | .otherKind _ => (IRType.base .any "any" false, st)
termination_by 8 * sizeOf tn + 4

/-- Union resolution, from handleUnionType of src/type/parser/unions.ts:
record whether any member is a literal null or undefined, filter those
members out, resolve the remainder at depth + 1, and return a Union node
carrying the nullability flag. -/
def handleUnionType (unionNodes : List TypeSyntax) (depth : Nat)
    (st : PState) : IRType × PState :=
  let isNb := unionNodes.any (fun n => isNullOrUndefined n)
  let nonNullUnionNodes :=
    unionNodes.filter (fun n => !(isNullOrUndefined n))
  let (unionIRs, st') := parseTypeList nonNullUnionNodes (depth + 1) st
  (.mk .union "union" isNb none none none (some unionIRs) none none none
     none none none none, st')
termination_by 8 * sizeOf unionNodes + 10
decreasing_by
  simp_wf
  have h := sizeOf_filter_le (fun n => !isNullOrUndefined n) unionNodes
  omega

/-- Resolution of a list of type nodes in order, threading the resolver
state (the source expresses this as Array.prototype.map over
parseType). -/
def parseTypeList (l : List TypeSyntax) (depth : Nat) (st : PState) :
    List IRType × PState :=
  match l with
  | [] => ([], st)
  | t :: ts =>
      let (r, st1) := parseType (some t) depth st
      let (rs, st2) := parseTypeList ts depth st1
      (r :: rs, st2)
termination_by 8 * sizeOf l + 2

/-- Tuple resolution, from handleTupleType of
src/engine/parser/type/tuple.ts: each element is resolved at depth + 1 with
rest and optional flags applied for rest elements, named tuple members and
optional elements (an OptionalType element is passed to parseType itself,
which degrades it to Any through the default branch). -/
def handleTupleType (elements : List TypeSyntax) (depth : Nat)
    (st : PState) : IRType × PState :=
  let (elementTypes, st') := parseTupleElems elements depth st
  (.mk .tuple "tuple" false none none none none (some elementTypes) none
     none none none none none, st')
termination_by 8 * sizeOf elements + 10

/-- Element loop of handleTupleType. -/
def parseTupleElems (l : List TypeSyntax) (depth : Nat) (st : PState) :
    List IRType × PState :=
  match l with
  | [] => ([], st)
  | e :: es =>
      let (res, st1) := parseTupleElem e depth st
      let (rest, st2) := parseTupleElems es depth st1
      (res :: rest, st2)
termination_by 8 * sizeOf l + 2

/-- Element dispatch of handleTupleType: rest elements and named tuple
members resolve their inner annotation with the matching flags; an
OptionalType element is handed to parseType whole (the source comments
that ts-morph does not wrap OptionalType, so parseType degrades it to Any)
and flagged optional; every other element resolves directly. -/
def parseTupleElem (e : TypeSyntax) (depth : Nat) (st : PState) :
    IRType × PState :=
  match e with
  | .restType inner =>
      let (r, s) := parseType (some inner) (depth + 1) st
      (r.setRest, s)
  | .namedTupleMember _ q dots ty =>
      let (r, s) := parseType (some ty) (depth + 1) st
      let r := if q then r.setOptional else r
      let r := if dots then r.setRest else r
      (r, s)
  | .optionalType inner =>
      let (r, s) :=
        parseType (some (TypeSyntax.optionalType inner)) (depth + 1) st
      (r.setOptional, s)
  | other => parseType (some other) (depth + 1) st
termination_by 8 * sizeOf e + 9

/-- Intersection resolution, from handleIntersectionType of
src/engine/parser/type/intersection.ts: null and undefined members set the
nullability and are skipped, never is recorded and forces a Never result,
void is skipped, the remaining members are resolved at depth + 1; zero
survivors yield Any, a single survivor is collapsed with OR-ed
nullability, and otherwise an Intersection node is returned. -/
def handleIntersectionType (rawTypes : List TypeSyntax) (depth : Nat)
    (st : PState) : IRType × PState :=
  let (isNb, hasNever, nodes, st') := intersectLoop rawTypes depth st
  if hasNever then (IRType.base .never "Never" isNb, st')
  else
    match nodes with
    | [] => (IRType.base .any "any" isNb, st')
    | [x] => (x.orNullable isNb, st')
    | _ =>
        (.mk .intersection "intersection" isNb none none none none none
           (some nodes) none none none none none, st')
termination_by 8 * sizeOf rawTypes + 10

/-- Member loop of handleIntersectionType, testing each member by its
source text as the source does with node.getText().trim() (the modelled
node texts carry no surrounding whitespace, so the trim is the
identity). -/
def intersectLoop (l : List TypeSyntax) (depth : Nat) (st : PState) :
    Bool × Bool × List IRType × PState :=
  match l with
  | [] => (false, false, [], st)
  | t :: ts =>
      let txt := synText t
      if txt == "null" || txt == "undefined" then
        let (_nb, hn, nodes, st1) := intersectLoop ts depth st
        (true, hn, nodes, st1)
      else if txt == "never" then
        let (nb, _hn, nodes, st1) := intersectLoop ts depth st
        (nb, true, nodes, st1)
      else if txt == "void" then intersectLoop ts depth st
      else
        let (parsed, st1) := parseType (some t) (depth + 1) st
        let (nb, hn, nodes, st2) := intersectLoop ts depth st1
        (nb, hn, parsed :: nodes, st2)
termination_by 8 * sizeOf l + 2

/-- Array resolution, from handleDirectArrayType of
src/type/parser/array.ts: the element node is resolved at depth + 1. -/
def handleDirectArrayType (elem : TypeSyntax) (depth : Nat) (st : PState) :
    IRType × PState :=
  let (arg, st') := parseType (some elem) (depth + 1) st
  (.mk .array "array" false none none none none none none (some arg) none
     none none none, st')
termination_by 8 * sizeOf elem + 10

/-- Type-reference resolution, from handleTypeReferences of
src/type/parser/typeRefernce.ts: the referenced name is kept and each
generic argument is resolved at depth + 1. -/
def handleTypeReferences (n : String) (typeArgs : List TypeSyntax)
    (depth : Nat) (st : PState) : IRType × PState :=
  let (genericArgs, st') := parseTypeList typeArgs (depth + 1) st
  (.mk .typeReference n false none none (some genericArgs) none none none
     none none none none none, st')
termination_by 8 * sizeOf typeArgs + 10

/-- Function-type resolution, from handleFunctionTypes of
src/type/parser/function.ts: parameters are resolved first (at the same
depth), parameters with an empty name are filtered out, and the return
type node is then resolved through parseType with the default depth 0. -/
def handleFunctionTypes (params : List ParamSyntax)
    (retNode : Option TypeSyntax) (depth : Nat) (st : PState) :
    IRType × PState :=
  let (paramsAll, st1) := handleParamList params depth st
  let params' := paramsAll.filter (fun e => !(e.name == ""))
  let (returnIR, st2) := parseType retNode 0 st1
  (.mk .function "function" false none none none none none none none none
     (some params') (some returnIR) none, st2)
termination_by 8 * (sizeOf params + sizeOf retNode) + 10

/-- Parameter loop of handleFunctionTypes. -/
def handleParamList (l : List ParamSyntax) (depth : Nat) (st : PState) :
    List IRParameter × PState :=
  match l with
  | [] => ([], st)
  | p :: ps =>
      let (r, st1) := handleParamTypes p depth st
      let (rs, st2) := handleParamList ps depth st1
      (r :: rs, st2)
termination_by 8 * sizeOf l + 4

/-- Single-parameter resolution, from handleParamTypes of
src/type/parser/function.ts: the annotation is resolved at the same depth
(parseType never returns undefined, so the defined branch is always
taken). -/
def handleParamTypes (p : ParamSyntax) (depth : Nat) (st : PState) :
    IRParameter × PState :=
  match p with
  | .mk n th o io ir =>
      let (paramType, st1) := parseType o depth st
      (.mk (if th then "this" else n) paramType io ir, st1)
termination_by 8 * sizeOf p + 2

/-- Record resolution, from handleTypeLiterals of
src/type/parser/typeLiterals.ts: every member group is resolved in order
(properties, methods, constructors, get accessors, set accessors, index
signatures, all member annotations going through parseType with the
default depth 0), the TypeLiteral node is built, and the
transpilerContext registry interaction of the source tail is performed by
hoistRecord. -/
def handleTypeLiterals (props : List PropSyntax) (meths : List MethodSyntax)
    (ctors : List CtorSyntax) (gets : List GetAccSyntax)
    (sets : List SetAccSyntax) (idxs : List IndexSigSyntax)
    (_depth : Nat) (st : PState) : IRType × PState :=
  let (properties, st1) := parsePropsList props st
  let (methods, st2) := parseMethodsList meths st1
  let (constructors, st3) := parseCtorsList ctors st2
  let (getAccessors, st4) := parseGetAccList gets st3
  let (setAccessors, st5) := parseSetAccList sets st4
  let (indexSignatures, st6) := parseIdxList idxs st5
  let val : IRType :=
    .mk .typeLiteral "typeLiteral" false none none none none none none none
      (some (.mk properties methods constructors getAccessors setAccessors
         indexSignatures)) none none none
  hoistRecord val st6
termination_by
  8 * (sizeOf props + sizeOf meths + sizeOf ctors + sizeOf gets
    + sizeOf sets + sizeOf idxs) + 10

/-- Property loop of handleTypeLiterals (the source stores the resolved
annotation in the property shape; isStatic is always false). -/
def parsePropsList (l : List PropSyntax) (st : PState) :
    List IRProperties × PState :=
  match l with
  | [] => ([], st)
  | .mk n o ro io :: ps =>
      let (typeAfter, st1) := parseType o 0 st
      let (rest, st2) := parsePropsList ps st1
      (.mk n typeAfter io ro false :: rest, st2)
termination_by 8 * sizeOf l + 2

/-- Method loop of handleTypeLiterals: the return annotation is resolved
before the parameters, as in the source. -/
def parseMethodsList (l : List MethodSyntax) (st : PState) :
    List IRMethod × PState :=
  match l with
  | [] => ([], st)
  | .mk n params rto io :: ms =>
      let (returnType, st1) := parseType rto 0 st
      let (parameters, st2) := parseMemberParams params st1
      let (rest, st3) := parseMethodsList ms st2
      (.mk n parameters (some returnType) io false :: rest, st3)
termination_by 8 * sizeOf l + 4

/-- Member-parameter loop used by the method and constructor groups of
handleTypeLiterals: parameters whose name node is the this keyword are
skipped. -/
def parseMemberParams (l : List ParamSyntax) (st : PState) :
    List IRParameter × PState :=
  match l with
  | [] => ([], st)
  | .mk n th o io ir :: ps =>
      if th then parseMemberParams ps st
      else
        let (typeAfter, st1) := parseType o 0 st
        let (rest, st2) := parseMemberParams ps st1
        (.mk n typeAfter io ir :: rest, st2)
termination_by 8 * sizeOf l + 2

/-- Construct-signature loop of handleTypeLiterals: each entry becomes a
method shape named constructor. -/
def parseCtorsList (l : List CtorSyntax) (st : PState) :
    List IRMethod × PState :=
  match l with
  | [] => ([], st)
  | .mk params rto :: cs =>
      let (returnType, st1) := parseType rto 0 st
      let (parameters, st2) := parseMemberParams params st1
      let (rest, st3) := parseCtorsList cs st2
      (.mk "constructor" parameters (some returnType) false false :: rest,
        st3)
termination_by 8 * sizeOf l + 4

/-- Get-accessor loop of handleTypeLiterals. -/
def parseGetAccList (l : List GetAccSyntax) (st : PState) :
    List IRGetAccessor × PState :=
  match l with
  | [] => ([], st)
  | .mk n rto :: gs =>
      let (typeAfter, st1) := parseType rto 0 st
      let (rest, st2) := parseGetAccList gs st1
      (.mk n typeAfter false :: rest, st2)
termination_by 8 * sizeOf l + 2

/-- Set-accessor loop of handleTypeLiterals: the first (modelled: only)
parameter of the accessor is resolved. -/
def parseSetAccList (l : List SetAccSyntax) (st : PState) :
    List IRSetAccessor × PState :=
  match l with
  | [] => ([], st)
  | .mk n (.mk pn th o io ir) :: ss =>
      let (t, st1) := parseType o 0 st
      let (rest, st2) := parseSetAccList ss st1
      (.mk n (.mk (if th then "this" else pn) t io ir) false :: rest, st2)
termination_by 8 * sizeOf l + 2

/-- Index-signature loop of handleTypeLiterals. -/
def parseIdxList (l : List IndexSigSyntax) (st : PState) :
    List IRIndexSignatures × PState :=
  match l with
  | [] => ([], st)
  | .mk k v ro :: ix =>
      let (keyType, st1) := parseType k 0 st
      let (valueType, st2) := parseType v 0 st1
      let (rest, st3) := parseIdxList ix st2
      (.mk keyType valueType ro :: rest, st3)
termination_by 8 * sizeOf l + 2

/-- Rest-type resolution, from handleRestType of
src/type/parser/restType.ts: the inner node is resolved at depth + 1 and
flagged as a rest element. -/
def handleRestType (inner : TypeSyntax) (depth : Nat) (st : PState) :
    IRType × PState :=
  let (res, st') := parseType (some inner) (depth + 1) st
  (res.setRest, st')
termination_by 8 * sizeOf inner + 10

end

/-- Memo-cache invariant of the depth-bound theorem: every cache entry
keyed beyond depth 15 holds the Any fallback triple. -/
def cacheOkC (c : List ((String × Nat) × IRType)) : Prop :=
  ∀ e ∈ c, 15 < e.1.2 →
    e.2.kind = TypeKind.any ∧ e.2.name = "any" ∧ e.2.isNullable = false

/-- Membership after a Map set: an entry of the updated map was already
present or is the entry just written. -/
theorem mem_jsMapSet {κ α : Type} [BEq κ] (m : List (κ × α)) (k : κ)
    (v : α) (e : κ × α) (he : e ∈ jsMapSet m k v) : e ∈ m ∨ e = (k, v) := by
  induction m with
  | nil =>
      simp [jsMapSet] at he
      exact Or.inr he
  | cons a as ih =>
      simp only [jsMapSet] at he
      by_cases hk : (a.1 == k) = true
      · rw [if_pos hk] at he
        rcases List.mem_cons.1 he with h | h
        · exact Or.inr h
        · exact Or.inl (List.mem_cons_of_mem a h)
      · rw [if_neg hk] at he
        rcases List.mem_cons.1 he with h | h
        · exact Or.inl (by rw [h]; exact List.mem_cons_self a as)
        · rcases ih h with h' | h'
          · exact Or.inl (List.mem_cons_of_mem a h')
          · exact Or.inr h'

/-- Writing an entry preserves the cache invariant provided the written
value is the fallback whenever its key depth exceeds the bound. -/
theorem cacheOkC_set (c : List ((String × Nat) × IRType))
    (k : String × Nat) (v : IRType) (hc : cacheOkC c)
    (hv : 15 < k.2 → v.kind = TypeKind.any ∧ v.name = "any" ∧
      v.isNullable = false) : cacheOkC (jsMapSet c k v) := by
  intro e he hd
  rcases mem_jsMapSet c k v e he with h | h
  · exact hc e h hd
  · subst h
    exact hv hd

/-- The registry tail of handleTypeLiterals only touches the
hoisted-literal table and the counter: the memo cache is unchanged. -/
theorem hoistRecord_cache (val : IRType) (st : PState) :
    (hoistRecord val st).2.cache = st.cache := by
  cases h : jsMapGet st.hoistedLiterals (serType val) <;>
    simp [hoistRecord, h]


/-- Every branch of handleIntersectionType returns the state produced by
its member loop. -/
theorem handleIntersectionType_state (l : List TypeSyntax) (depth : Nat)
    (st : PState) :
    (handleIntersectionType l depth st).2
      = (intersectLoop l depth st).2.2.2 := by
  rcases hr : intersectLoop l depth st with ⟨nb, hn, nodes, st'⟩
  cases hn
  · rcases nodes with _ | ⟨x, _ | ⟨y, rest⟩⟩ <;>
      simp [handleIntersectionType, hr]
  · simp [handleIntersectionType, hr]

/-- Cache-invariant preservation across the whole resolver: every function
of the parseType mutual block maps a state whose memo cache satisfies the
depth-bound invariant to a state whose cache still satisfies it (the only
cache writes are the fallback at deep keys and switch results at keys
within the bound), proved by the mutual induction principle of the
block. -/
theorem parser_cacheOk_all :
    (∀ (o : Option TypeSyntax) (depth : Nat) (st : PState),
        cacheOkC st.cache → cacheOkC (parseType o depth st).2.cache) ∧
    (∀ (tn : TypeSyntax) (depth : Nat) (st : PState),
        cacheOkC st.cache → cacheOkC (parseTypeNode tn depth st).2.cache) ∧
    (∀ (tn : TypeSyntax) (depth : Nat) (st : PState),
        cacheOkC st.cache → cacheOkC (parseTypeUncached tn depth st).2.cache) ∧
    (∀ (tn : TypeSyntax) (depth : Nat) (st : PState),
        cacheOkC st.cache → cacheOkC (parseTypeSwitch tn depth st).2.cache) ∧
    (∀ (inner : TypeSyntax) (depth : Nat) (st : PState),
        cacheOkC st.cache → cacheOkC (handleRestType inner depth st).2.cache) ∧
    (∀ (props : List PropSyntax) (meths : List MethodSyntax)
        (ctors : List CtorSyntax) (gets : List GetAccSyntax)
        (sets : List SetAccSyntax) (idxs : List IndexSigSyntax)
        (depth : Nat) (st : PState),
        cacheOkC st.cache →
        cacheOkC (handleTypeLiterals props meths ctors gets sets idxs
          depth st).2.cache) ∧
    (∀ (l : List IndexSigSyntax) (st : PState),
        cacheOkC st.cache → cacheOkC (parseIdxList l st).2.cache) ∧
    (∀ (l : List SetAccSyntax) (st : PState),
        cacheOkC st.cache → cacheOkC (parseSetAccList l st).2.cache) ∧
    (∀ (l : List GetAccSyntax) (st : PState),
        cacheOkC st.cache → cacheOkC (parseGetAccList l st).2.cache) ∧
    (∀ (l : List CtorSyntax) (st : PState),
        cacheOkC st.cache → cacheOkC (parseCtorsList l st).2.cache) ∧
    (∀ (l : List ParamSyntax) (st : PState),
        cacheOkC st.cache → cacheOkC (parseMemberParams l st).2.cache) ∧
    (∀ (l : List MethodSyntax) (st : PState),
        cacheOkC st.cache → cacheOkC (parseMethodsList l st).2.cache) ∧
    (∀ (l : List PropSyntax) (st : PState),
        cacheOkC st.cache → cacheOkC (parsePropsList l st).2.cache) ∧
    (∀ (params : List ParamSyntax) (retNode : Option TypeSyntax)
        (depth : Nat) (st : PState),
        cacheOkC st.cache →
        cacheOkC (handleFunctionTypes params retNode depth st).2.cache) ∧
    (∀ (l : List ParamSyntax) (depth : Nat) (st : PState),
        cacheOkC st.cache → cacheOkC (handleParamList l depth st).2.cache) ∧
    (∀ (p : ParamSyntax) (depth : Nat) (st : PState),
        cacheOkC st.cache → cacheOkC (handleParamTypes p depth st).2.cache) ∧
    (∀ (n : String) (typeArgs : List TypeSyntax) (depth : Nat) (st : PState),
        cacheOkC st.cache →
        cacheOkC (handleTypeReferences n typeArgs depth st).2.cache) ∧
    (∀ (l : List TypeSyntax) (depth : Nat) (st : PState),
        cacheOkC st.cache → cacheOkC (parseTypeList l depth st).2.cache) ∧
    (∀ (elem : TypeSyntax) (depth : Nat) (st : PState),
        cacheOkC st.cache →
        cacheOkC (handleDirectArrayType elem depth st).2.cache) ∧
    (∀ (l : List TypeSyntax) (depth : Nat) (st : PState),
        cacheOkC st.cache →
        cacheOkC (handleIntersectionType l depth st).2.cache) ∧
    (∀ (l : List TypeSyntax) (depth : Nat) (st : PState),
        cacheOkC st.cache → cacheOkC (intersectLoop l depth st).2.2.2.cache) ∧
    (∀ (l : List TypeSyntax) (depth : Nat) (st : PState),
        cacheOkC st.cache → cacheOkC (handleTupleType l depth st).2.cache) ∧
    (∀ (l : List TypeSyntax) (depth : Nat) (st : PState),
        cacheOkC st.cache → cacheOkC (parseTupleElems l depth st).2.cache) ∧
    (∀ (e : TypeSyntax) (depth : Nat) (st : PState),
        cacheOkC st.cache → cacheOkC (parseTupleElem e depth st).2.cache) ∧
    (∀ (l : List TypeSyntax) (depth : Nat) (st : PState),
        cacheOkC st.cache → cacheOkC (handleUnionType l depth st).2.cache) := by
  apply parseType.mutual_induct
  · intro depth st h
    simpa [parseType] using h
  · intro depth st r ih h
    simpa [parseType] using ih h
  · intro tn depth st ck cached hget hlit ih h
    have hg : jsMapGet st.cache (synText tn, depth) = some cached := hget
    simpa [parseTypeNode, hg, hlit] using ih h
  · intro tn depth st ck cached hget hlit h
    have hg : jsMapGet st.cache (synText tn, depth) = some cached := hget
    simpa [parseTypeNode, hg, hlit] using h
  · intro tn depth st ck hget ih h
    have hg : jsMapGet st.cache (synText tn, depth) = none := hget
    simpa [parseTypeNode, hg] using ih h
  · intro tn depth st hd h
    simp [parseTypeUncached, hd]
    exact cacheOkC_set _ _ _ h (fun _ => ⟨rfl, rfl, rfl⟩)
  · intro tn depth st hd r1 s1 heq ih h
    have h1 : cacheOkC s1.cache := by
      have t := ih h
      rwa [heq] at t
    simp [parseTypeUncached, hd, heq]
    exact cacheOkC_set _ _ _ h1 (fun hx => absurd hx hd)
  · intro depth st h
    simpa [parseTypeSwitch] using h
  · intro depth st h
    simpa [parseTypeSwitch] using h
  · intro depth st h
    simpa [parseTypeSwitch] using h
  · intro depth st h
    simpa [parseTypeSwitch] using h
  · intro depth st h
    simpa [parseTypeSwitch] using h
  · intro depth st h
    simpa [parseTypeSwitch] using h
  · intro depth st h
    simpa [parseTypeSwitch] using h
  · intro depth st h
    simpa [parseTypeSwitch] using h
  · intro depth st h
    simpa [parseTypeSwitch] using h
  · intro depth st h
    simpa [parseTypeSwitch] using h
  · intro depth st h
    simpa [parseTypeSwitch] using h
  · intro depth st lit h
    simpa [parseTypeSwitch] using h
  · intro depth st members ih h
    simpa [parseTypeSwitch] using ih h
  · intro depth st elems ih h
    simpa [parseTypeSwitch] using ih h
  · intro depth st members ih h
    simpa [parseTypeSwitch] using ih h
  · intro depth st elem ih h
    simpa [parseTypeSwitch] using ih h
  · intro depth st inner ih h
    simpa [parseTypeSwitch] using ih h
  · intro depth st n args ih h
    simpa [parseTypeSwitch] using ih h
  · intro depth st ps ret ih h
    simpa [parseTypeSwitch] using ih h
  · intro depth st ps ms cs gs ss ix ih h
    simpa [parseTypeSwitch] using ih h
  · intro depth st inner ih h
    simpa [parseTypeSwitch] using ih h
  · intro depth st n q dots ty h
    simpa [parseTypeSwitch] using h
  · intro depth st inner h
    simpa [parseTypeSwitch] using h
  · intro depth st t h
    simpa [parseTypeSwitch] using h
  · intro inner depth st r1 s1 heq ih h
    have h1 : cacheOkC s1.cache := by
      have t := ih h
      rwa [heq] at t
    simpa [handleRestType, heq] using h1
  · intro props meths ctors gets sets idxs depth st r1 s1 e1 r2 s2 e2 r3 s3
      e3 r4 s4 e4 r5 s5 e5 r6 s6 e6 ih13 ih12 ih10 ih9 ih8 ih7 h
    have h1 : cacheOkC s1.cache := by
      have t := ih13 h
      rwa [e1] at t
    have h2 : cacheOkC s2.cache := by
      have t := ih12 h1
      rwa [e2] at t
    have h3 : cacheOkC s3.cache := by
      have t := ih10 h2
      rwa [e3] at t
    have h4 : cacheOkC s4.cache := by
      have t := ih9 h3
      rwa [e4] at t
    have h5 : cacheOkC s5.cache := by
      have t := ih8 h4
      rwa [e5] at t
    have h6 : cacheOkC s6.cache := by
      have t := ih7 h5
      rwa [e6] at t
    simpa [handleTypeLiterals, e1, e2, e3, e4, e5, e6, hoistRecord_cache]
      using h6
  · intro st h
    simpa [parseIdxList] using h
  · intro st k v ro ix r1 s1 e1 r2 s2 e2 r3 s3 e3 ihk ihv ihix h
    have h1 : cacheOkC s1.cache := by
      have t := ihk h
      rwa [e1] at t
    have h2 : cacheOkC s2.cache := by
      have t := ihv h1
      rwa [e2] at t
    have h3 : cacheOkC s3.cache := by
      have t := ihix h2
      rwa [e3] at t
    simpa [parseIdxList, e1, e2, e3] using h3
  · intro st h
    simpa [parseSetAccList] using h
  · intro st n pn th o io ir ss r1 s1 e1 r2 s2 e2 iho ihss h
    have h1 : cacheOkC s1.cache := by
      have t := iho h
      rwa [e1] at t
    have h2 : cacheOkC s2.cache := by
      have t := ihss h1
      rwa [e2] at t
    simpa [parseSetAccList, e1, e2] using h2
  · intro st h
    simpa [parseGetAccList] using h
  · intro st n ret gs r1 s1 e1 r2 s2 e2 ihr ihg h
    have h1 : cacheOkC s1.cache := by
      have t := ihr h
      rwa [e1] at t
    have h2 : cacheOkC s2.cache := by
      have t := ihg h1
      rwa [e2] at t
    simpa [parseGetAccList, e1, e2] using h2
  · intro st h
    simpa [parseCtorsList] using h
  · intro st params ret cs r1 s1 e1 r2 s2 e2 r3 s3 e3 ihr ihp ihc h
    have h1 : cacheOkC s1.cache := by
      have t := ihr h
      rwa [e1] at t
    have h2 : cacheOkC s2.cache := by
      have t := ihp h1
      rwa [e2] at t
    have h3 : cacheOkC s3.cache := by
      have t := ihc h2
      rwa [e3] at t
    simpa [parseCtorsList, e1, e2, e3] using h3
  · intro st h
    simpa [parseMemberParams] using h
  · intro st n o io ir ps ih h
    simpa [parseMemberParams] using ih h
  · intro st n th o io ir ps hth r1 s1 e1 r2 s2 e2 iho ihp h
    have h1 : cacheOkC s1.cache := by
      have t := iho h
      rwa [e1] at t
    have h2 : cacheOkC s2.cache := by
      have t := ihp h1
      rwa [e2] at t
    simpa [parseMemberParams, hth, e1, e2] using h2
  · intro st h
    simpa [parseMethodsList] using h
  · intro st n params ret io ms r1 s1 e1 r2 s2 e2 r3 s3 e3 ihr ihp ihm h
    have h1 : cacheOkC s1.cache := by
      have t := ihr h
      rwa [e1] at t
    have h2 : cacheOkC s2.cache := by
      have t := ihp h1
      rwa [e2] at t
    have h3 : cacheOkC s3.cache := by
      have t := ihm h2
      rwa [e3] at t
    simpa [parseMethodsList, e1, e2, e3] using h3
  · intro st h
    simpa [parsePropsList] using h
  · intro st n o ro io ps r1 s1 e1 r2 s2 e2 iho ihp h
    have h1 : cacheOkC s1.cache := by
      have t := iho h
      rwa [e1] at t
    have h2 : cacheOkC s2.cache := by
      have t := ihp h1
      rwa [e2] at t
    simpa [parsePropsList, e1, e2] using h2
  · intro params ret depth st r1 s1 e1 r2 s2 e2 ihp ihr h
    have h1 : cacheOkC s1.cache := by
      have t := ihp h
      rwa [e1] at t
    have h2 : cacheOkC s2.cache := by
      have t := ihr h1
      rwa [e2] at t
    simpa [handleFunctionTypes, e1, e2] using h2
  · intro depth st h
    simpa [handleParamList] using h
  · intro depth st p ps r1 s1 e1 r2 s2 e2 ih16 ih15 h
    have h1 : cacheOkC s1.cache := by
      have t := ih16 h
      rwa [e1] at t
    have h2 : cacheOkC s2.cache := by
      have t := ih15 h1
      rwa [e2] at t
    simpa [handleParamList, e1, e2] using h2
  · intro depth st n th o io ir r1 s1 e1 ih h
    have h1 : cacheOkC s1.cache := by
      have t := ih h
      rwa [e1] at t
    simpa [handleParamTypes, e1] using h1
  · intro n typeArgs depth st u s' e ih h
    have h1 : cacheOkC s'.cache := by
      have t := ih h
      rwa [e] at t
    simpa [handleTypeReferences, e] using h1
  · intro depth st h
    simpa [parseTypeList] using h
  · intro depth st t ts r1 s1 e1 r2 s2 e2 ih1 ih18 h
    have h1 : cacheOkC s1.cache := by
      have t2 := ih1 h
      rwa [e1] at t2
    have h2 : cacheOkC s2.cache := by
      have t2 := ih18 h1
      rwa [e2] at t2
    simpa [parseTypeList, e1, e2] using h2
  · intro elem depth st r1 s1 e1 ih h
    have h1 : cacheOkC s1.cache := by
      have t := ih h
      rwa [e1] at t
    simpa [handleDirectArrayType, e1] using h1
  · intro raw depth st nb nodes st' e ih h
    have h1 : cacheOkC st'.cache := by
      have t := ih h
      rwa [e] at t
    rw [handleIntersectionType_state, e]
    exact h1
  · intro raw depth st nb hn st' hne e ih h
    have h1 : cacheOkC st'.cache := by
      have t := ih h
      rwa [e] at t
    rw [handleIntersectionType_state, e]
    exact h1
  · intro raw depth st nb hn st' hne x e ih h
    have h1 : cacheOkC st'.cache := by
      have t := ih h
      rwa [e] at t
    rw [handleIntersectionType_state, e]
    exact h1
  · intro raw depth st nb hn nodes st' e hne hnil hsing ih h
    have h1 : cacheOkC st'.cache := by
      have t := ih h
      rwa [e] at t
    rw [handleIntersectionType_state, e]
    exact h1
  · intro depth st h
    simpa [intersectLoop] using h
  · intro depth st t ts txt hc nb hn nodes st' e ih h
    have hc' : (synText t == "null" || synText t == "undefined") = true := hc
    have h1 : cacheOkC st'.cache := by
      have t2 := ih h
      rwa [e] at t2
    simpa [intersectLoop, hc', e] using h1
  · intro depth st t ts txt hc1 hc2 nb hn nodes st' e ih h
    have hc1' : ¬(synText t == "null" || synText t == "undefined") = true :=
      hc1
    have hc2' : (synText t == "never") = true := hc2
    have h1 : cacheOkC st'.cache := by
      have t2 := ih h
      rwa [e] at t2
    simpa [intersectLoop, hc1', hc2', e] using h1
  · intro depth st t ts txt hc1 hc2 hc3 ih h
    have hc1' : ¬(synText t == "null" || synText t == "undefined") = true :=
      hc1
    have hc2' : ¬(synText t == "never") = true := hc2
    have hc3' : (synText t == "void") = true := hc3
    simpa [intersectLoop, hc1', hc2', hc3'] using ih h
  · intro depth st t ts txt hc1 hc2 hc3 r1 s1 e1 nb hn nodes s2 e2 ih1 ihl h
    have hc1' : ¬(synText t == "null" || synText t == "undefined") = true :=
      hc1
    have hc2' : ¬(synText t == "never") = true := hc2
    have hc3' : ¬(synText t == "void") = true := hc3
    have h1 : cacheOkC s1.cache := by
      have t2 := ih1 h
      rwa [e1] at t2
    have h2 : cacheOkC s2.cache := by
      have t2 := ihl h1
      rwa [e2] at t2
    simpa [intersectLoop, hc1', hc2', hc3', e1, e2] using h2
  · intro elements depth st u s' e ih h
    have h1 : cacheOkC s'.cache := by
      have t := ih h
      rwa [e] at t
    simpa [handleTupleType, e] using h1
  · intro depth st h
    simpa [parseTupleElems] using h
  · intro depth st t ts r1 s1 e1 r2 s2 e2 ih24 ih23 h
    have h1 : cacheOkC s1.cache := by
      have t2 := ih24 h
      rwa [e1] at t2
    have h2 : cacheOkC s2.cache := by
      have t2 := ih23 h1
      rwa [e2] at t2
    simpa [parseTupleElems, e1, e2] using h2
  · intro depth st inner r1 s1 e ih h
    have h1 : cacheOkC s1.cache := by
      have t := ih h
      rwa [e] at t
    simpa [parseTupleElem, e] using h1
  · intro depth st name q dots ty r1 s1 e ih h
    have h1 : cacheOkC s1.cache := by
      have t := ih h
      rwa [e] at t
    simpa [parseTupleElem, e] using h1
  · intro depth st inner r1 s1 e ih h
    have h1 : cacheOkC s1.cache := by
      have t := ih h
      rwa [e] at t
    simpa [parseTupleElem, e] using h1
  · intro depth st other hn1 hn2 hn3 ih h
    have he := parseTupleElem.eq_4 other depth st hn1 hn2 hn3
    rw [he]
    exact ih h
  · intro unionNodes depth st nn u st' e ih h
    have e' : parseTypeList (List.filter (fun n => !isNullOrUndefined n)
        unionNodes) (depth + 1) st = (u, st') := e
    have h1 : cacheOkC st'.cache := by
      have t := ih h
      rwa [e] at t
    simpa [handleUnionType, e'] using h1

/-- The cache invariant holds in the initial resolver state. -/
theorem initPState_cacheOk : cacheOkC initPState.cache := by
  intro e he
  simp [initPState] at he

/-- Corollary for the entry point: a parseType call from any state
satisfying the cache invariant yields a state satisfying it, so the
invariant hypothesis of the depth-bound theorem holds in every state
reachable from the initial one. -/
theorem parseType_preserves_cacheOk (o : Option TypeSyntax) (depth : Nat)
    (st : PState) (h : cacheOkC st.cache) :
    cacheOkC (parseType o depth st).2.cache :=
  parser_cacheOk_all.1 o depth st h


/-- Mutable state of the TypeVisitor class: the hoistedInterfaces table
(generated name to record shape), the seenLiterals table (canonical hash to
generated name) and the anonymous-name counter, which starts at 1. -/
structure VState where
  hoistedInterfaces : List (String × IRLiteral)
  seenLiterals : List (String × String)
  anonCount : Nat

/-- Fresh TypeVisitor state, as initialized by the class field
declarations. -/
def initVState : VState :=
  { hoistedInterfaces := [], seenLiterals := [], anonCount := 1 }

/-- Ordered insertion used to model Array.prototype.sort with the
comparator a.name.localeCompare(b.name): localeCompare is modelled by the
character-wise comparison of the names (they agree on the ASCII member
names at issue), and insertion with a non-strict bound keeps the sort
stable, as ECMAScript requires. -/
def insertByName {α : Type} (nameOf : α → String) (x : α) :
    List α → List α
  | [] => [x]
  | y :: ys =>
      if (compare (nameOf x) (nameOf y)).isLE then x :: y :: ys
      else y :: insertByName nameOf x ys

/-- Stable sort by name, modelling Array.prototype.sort with the
localeCompare comparator. -/
def sortByName {α : Type} (nameOf : α → String) : List α → List α
  | [] => []
  | x :: xs => insertByName nameOf x (sortByName nameOf xs)

/-- Member-order normalization of TypeVisitor.canonicalizeLiteral:
properties, methods, get accessors and set accessors are sorted by name so
that declaration order never affects the hash; constructors and index
signatures are left as declared. -/
def canonicalizeLiteral : IRLiteral → IRLiteral
  | .mk props meths ctors gets sets idxs =>
      .mk (sortByName IRProperties.name props)
        (sortByName IRMethod.name meths) ctors
        (sortByName IRGetAccessor.name gets)
        (sortByName IRSetAccessor.name sets) idxs

/-- Deduplicating hoist of TypeVisitor.hoistLiteral: the literal is
canonicalized, hashed with the deterministic serializer (JSON.stringify in
the source), deduplicated against the seenLiterals table, and replaced by
a TypeReference to the existing or freshly allocated
AnonInterface$<counter> name; a fresh shape is registered in both tables
and the counter is bumped. -/
def hoistLiteral (lit : IRLiteral) (vs : VState) : IRType × VState :=
  let canon := canonicalizeLiteral lit
  let hash := serLit canon
  match jsMapGet vs.seenLiterals hash with
  | some existingName =>
      (.mk .typeReference existingName false none none (some []) none none
         none none none none none none, vs)
  | none =>
      let newName := "AnonInterface$" ++ toString vs.anonCount
      let vs' : VState :=
        { vs with
          anonCount := vs.anonCount + 1,
          seenLiterals := jsMapSet vs.seenLiterals hash newName,
          hoistedInterfaces :=
            jsMapSet vs.hoistedInterfaces newName canon }
      (.mk .typeReference newName false none none (some []) none none
         none none none none none none, vs')

mutual

/-- Recursive core of TypeVisitor.visit: rewrites a type in place,
descending into array elements, tuple, union and intersection members and
non-empty generic-argument lists, and replacing every TypeLiteral that
carries a record payload by the result of hoistLiteral after its children
have been visited bottom-up; every other kind is returned unchanged. -/
def visit (t : IRType) (vs : VState) : IRType × VState :=
  match t with
  | .mk k n nb io ir ga ut tt it et ol ps rt lv =>
    match k with
    | .array =>
        (match et with
         | some e =>
             let (e', vs') := visit e vs
             (.mk k n nb io ir ga ut tt it (some e') ol ps rt lv, vs')
         | none => (.mk k n nb io ir ga ut tt it et ol ps rt lv, vs))
    | .tuple =>
        (match tt with
         | some l =>
             let (l', vs') := visitTypeList l vs
             (.mk k n nb io ir ga ut (some l') it et ol ps rt lv, vs')
         | none => (.mk k n nb io ir ga ut tt it et ol ps rt lv, vs))
    | .union =>
        (match ut with
         | some l =>
             let (l', vs') := visitTypeList l vs
             (.mk k n nb io ir ga (some l') tt it et ol ps rt lv, vs')
         | none => (.mk k n nb io ir ga ut tt it et ol ps rt lv, vs))
    | .intersection =>
        (match it with
         | some l =>
             let (l', vs') := visitTypeList l vs
             (.mk k n nb io ir ga ut tt (some l') et ol ps rt lv, vs')
         | none => (.mk k n nb io ir ga ut tt it et ol ps rt lv, vs))
    | .typeReference =>
        (match ga with
         | some (a :: args) =>
             let (l', vs') := visitTypeList (a :: args) vs
             (.mk k n nb io ir (some l') ut tt it et ol ps rt lv, vs')
         | _ => (.mk k n nb io ir ga ut tt it et ol ps rt lv, vs))
    | .typeLiteral =>
        (match ol with
         | none => (.mk k n nb io ir ga ut tt it et ol ps rt lv, vs)
         | some lit =>
             let (lit', vs1) := visitLiteralChildren lit vs
             hoistLiteral lit' vs1)
    | _ => (.mk k n nb io ir ga ut tt it et ol ps rt lv, vs)

/-- Visit of a list of type nodes in order. -/
def visitTypeList (l : List IRType) (vs : VState) :
    List IRType × VState :=
  match l with
  | [] => ([], vs)
  | t :: ts =>
      let (t', vs1) := visit t vs
      let (ts', vs2) := visitTypeList ts vs1
      (t' :: ts', vs2)

/-- TypeVisitor.visitLiteralChildren: visits every member type of a record
shape (properties, methods, constructors, index signatures, then get and
set accessors, in source order), so nested records are hoisted before
their parent is hashed. -/
def visitLiteralChildren (lit : IRLiteral) (vs : VState) :
    IRLiteral × VState :=
  match lit with
  | .mk props meths ctors gets sets idxs =>
      let (props', vs1) := visitProps props vs
      let (meths', vs2) := visitMeths meths vs1
      let (ctors', vs3) := visitCtors ctors vs2
      let (idxs', vs4) := visitIdxs idxs vs3
      let (gets', vs5) := visitGets gets vs4
      let (sets', vs6) := visitSets sets vs5
      (.mk props' meths' ctors' gets' sets' idxs', vs6)

/-- Property loop of visitLiteralChildren. -/
def visitProps (l : List IRProperties) (vs : VState) :
    List IRProperties × VState :=
  match l with
  | [] => ([], vs)
  | .mk n t io ro st :: ps =>
      let (t', vs1) := visit t vs
      let (ps', vs2) := visitProps ps vs1
      (.mk n t' io ro st :: ps', vs2)

/-- Method loop of visitLiteralChildren: the return type (when present) is
visited before the parameters, as in the source. -/
def visitMeths (l : List IRMethod) (vs : VState) :
    List IRMethod × VState :=
  match l with
  | [] => ([], vs)
  | .mk n params rt io st :: ms =>
      let (rt', vs1) :=
        match rt with
        | some r =>
            let (r', vsa) := visit r vs
            (some r', vsa)
        | none => (none, vs)
      let (params', vs2) := visitParams params vs1
      let (ms', vs3) := visitMeths ms vs2
      (.mk n params' rt' io st :: ms', vs3)

/-- Constructor loop of visitLiteralChildren: parameters first, then the
return type when present, as in the source. -/
def visitCtors (l : List IRMethod) (vs : VState) :
    List IRMethod × VState :=
  match l with
  | [] => ([], vs)
  | .mk n params rt io st :: ms =>
      let (params', vs1) := visitParams params vs
      let (rt', vs2) :=
        match rt with
        | some r =>
            let (r', vsa) := visit r vs1
            (some r', vsa)
        | none => (none, vs1)
      let (ms', vs3) := visitCtors ms vs2
      (.mk n params' rt' io st :: ms', vs3)

/-- TypeVisitor.visitParameters: visits each parameter type in order. -/
def visitParams (l : List IRParameter) (vs : VState) :
    List IRParameter × VState :=
  match l with
  | [] => ([], vs)
  | .mk n t io ir :: ps =>
      let (t', vs1) := visit t vs
      let (ps', vs2) := visitParams ps vs1
      (.mk n t' io ir :: ps', vs2)

/-- Index-signature loop of visitLiteralChildren. -/
def visitIdxs (l : List IRIndexSignatures) (vs : VState) :
    List IRIndexSignatures × VState :=
  match l with
  | [] => ([], vs)
  | .mk kt vt ro :: ix =>
      let (kt', vs1) := visit kt vs
      let (vt', vs2) := visit vt vs1
      let (ix', vs3) := visitIdxs ix vs2
      (.mk kt' vt' ro :: ix', vs3)

/-- Get-accessor loop of visitLiteralChildren. -/
def visitGets (l : List IRGetAccessor) (vs : VState) :
    List IRGetAccessor × VState :=
  match l with
  | [] => ([], vs)
  | .mk n t st :: gs =>
      let (t', vs1) := visit t vs
      let (gs', vs2) := visitGets gs vs1
      (.mk n t' st :: gs', vs2)

/-- Set-accessor loop of visitLiteralChildren. -/
def visitSets (l : List IRSetAccessor) (vs : VState) :
    List IRSetAccessor × VState :=
  match l with
  | [] => ([], vs)
  | .mk n p st :: ss =>
      let (p', vs1) :=
        match p with
        | .mk pn pt pio pir =>
            let (pt', vsa) := visit pt vs
            ((IRParameter.mk pn pt' pio pir), vsa)
      let (ss', vs2) := visitSets ss vs1
      (.mk n p' st :: ss', vs2)

end

/-- Declaration kind tag, from the IRDeclKind enum of
src/ir/declaration.ts. -/
inductive IRDeclKind where
  | Interface | TypeAlias | Class | Function | Variable | Enum
deriving DecidableEq

/-- Class constructor shape, from src/ir/class.ts (IRConstructor). -/
structure IRConstructor where
  parameters : List IRParameter

/-- Interface declaration, from src/ir/interface.ts; the extends clause is
stored under extendsList because extends is reserved here. -/
structure IRInterfaceDecl where
  name : String
  extendsList : List String
  properties : List IRProperties
  methods : List IRMethod
  constructors : List IRMethod
  getAccessors : List IRGetAccessor
  setAccessors : List IRSetAccessor
  indexSignatures : List IRIndexSignatures

/-- Class declaration, from src/ir/class.ts. -/
structure IRClassDecl where
  name : String
  extendsClass : Option String
  implementsList : List String
  isAbstract : Bool
  typeParams : List String
  constructors : List IRConstructor
  properties : List IRProperties
  methods : List IRMethod
  getAccessors : List IRGetAccessor
  setAccessors : List IRSetAccessor

/-- Declaration IR, the closed union of src/ir/index.ts
(IRDeclarationUnion): interface, type alias, class, function, variable and
enum declarations, each carrying its kind tag implicitly through the
constructor. -/
inductive IRDeclaration where
  | interfaceDecl (i : IRInterfaceDecl)
  | typeAliasDecl (name : String) (type : IRType)
  | classDecl (c : IRClassDecl)
  | functionDecl (name : String) (parameters : List IRParameter)
      (returnType : IRType)
  | variableDecl (name : String) (type : IRType) (isReadonly : Bool)
      (isConst : Bool)
  | enumDecl (name : String) (members : List (String × Option LitVal))

/-- Kind tag of a declaration. -/
def IRDeclaration.kind : IRDeclaration → IRDeclKind
  | .interfaceDecl _ => .Interface
  | .typeAliasDecl _ _ => .TypeAlias
  | .classDecl _ => .Class
  | .functionDecl _ _ _ => .Function
  | .variableDecl _ _ _ _ => .Variable
  | .enumDecl _ _ => .Enum

/-- Name of a declaration. -/
def IRDeclaration.name : IRDeclaration → String
  | .interfaceDecl i => i.name
  | .typeAliasDecl n _ => n
  | .classDecl c => c.name
  | .functionDecl n _ _ => n
  | .variableDecl n _ _ _ => n
  | .enumDecl n _ => n

/-- Assignment e.name = value on a declaration, as performed by the
overload renaming of the declaration transformer. -/
def IRDeclaration.setName (d : IRDeclaration) (n : String) : IRDeclaration :=
  match d with
  | .interfaceDecl i => .interfaceDecl { i with name := n }
  | .typeAliasDecl _ t => .typeAliasDecl n t
  | .classDecl c => .classDecl { c with name := n }
  | .functionDecl _ ps rt => .functionDecl n ps rt
  | .variableDecl _ t ro c => .variableDecl n t ro c
  | .enumDecl _ ms => .enumDecl n ms

/-- Entry point TypeVisitor.visitDeclaration: rewrites the types carried by
a declaration through visit.  Variable and TypeAlias declarations have
their type visited; Function declarations have the return type visited
first and then the parameters.  The Interface and Class branches of the
source delegate to visitMembers over the historical container shapes whose
property and accessor types are stored under a typeAfter field that
visitMembers never reads (it accesses prop.type), so those member types
pass through the visitor unchanged; they are modelled as the identity
here and no verified claim depends on them. -/
def visitDeclaration (d : IRDeclaration) (vs : VState) :
    IRDeclaration × VState :=
  match d with
  | .variableDecl n t ro c =>
      let (t', vs') := visit t vs
      (.variableDecl n t' ro c, vs')
  | .typeAliasDecl n t =>
      let (t', vs') := visit t vs
      (.typeAliasDecl n t', vs')
  | .functionDecl n params ret =>
      let (ret', vs1) := visit ret vs
      let (params', vs2) := visitParams params vs1
      (.functionDecl n params' ret', vs2)
  | other => (other, vs)

/-- Recoverable error record, from the TranspileException class of
src/transpiler.ts. -/
structure TranspileException where
  message : String
  code : Option String
  sourceFile : Option String
  line : Option Nat
  column : Option Nat
deriving DecidableEq

/-- Constructor helper matching new TranspileException(message) with every
optional argument omitted. -/
def TranspileException.ofMessage (msg : String) : TranspileException :=
  { message := msg, code := none, sourceFile := none, line := none,
    column := none }

namespace DeclarationTransformer

/-- JSON-round-trip clone of a declaration
(src/ir/index.ts deepCloneIRDeclaration): on the pure declaration values
modelled here, JSON.parse of JSON.stringify is the identity, and the
closed kind switch never reaches its throwing default. -/
def deepCloneIRDeclaration (d : IRDeclaration) : IRDeclaration := d

/-- Overload grouping step DeclarationTransformer.applyFunctionOverloads:
singleton entries are cloned through unchanged; an entry whose
declarations are all Function declarations is cloned and renamed
name_1, name_2, ... in declaration order; any other multi-entry group is
passed through untouched (and no diagnostic is recorded); an empty entry
is dropped because neither branch of the source applies. -/
def applyFunctionOverloads
    (declarationMap : List (String × List IRDeclaration)) :
    List (String × List IRDeclaration) :=
  match declarationMap with
  | [] => []
  | (k, v) :: rest =>
      let tail := applyFunctionOverloads rest
      match v with
      | [d0] => (k, [deepCloneIRDeclaration d0]) :: tail
      | _ :: _ :: _ =>
          if v.all (fun e => e.kind == IRDeclKind.Function) then
            let clonedDecls := v.map deepCloneIRDeclaration
            let renamed := clonedDecls.mapIdx
              (fun i e => e.setName (e.name ++ "_" ++ toString (i + 1)))
            (k, renamed) :: tail
          else (k, v) :: tail
      | [] => tail

/-- Insertion into the name-keyed method group map, modelling the
methodMap construction loop of the method-overload passes (push onto an
existing group, else start a new group, preserving insertion order). -/
def addToGroup (m : List (String × List IRMethod)) (meth : IRMethod) :
    List (String × List IRMethod) :=
  match m with
  | [] => [(meth.name, [meth])]
  | (k, g) :: rest =>
      if k == meth.name then (k, g ++ [meth]) :: rest
      else (k, g) :: addToGroup rest meth

/-- Name-keyed method groups in insertion order. -/
def methodGroups (methods : List IRMethod) :
    List (String × List IRMethod) :=
  methods.foldl addToGroup []

/-- Renamed method list of the method-overload passes: groups with more
than one member are renamed <group name>_<1-based index>, singleton groups
pass through. -/
def renameMethodGroups (groups : List (String × List IRMethod)) :
    List IRMethod :=
  match groups with
  | [] => []
  | (methodName, g) :: rest =>
      (match g with
       | _ :: _ :: _ =>
           g.mapIdx (fun i m =>
             match m with
             | .mk _ ps rt io st =>
                 .mk (methodName ++ "_" ++ toString (i + 1)) ps rt io st)
       | _ => g) ++ renameMethodGroups rest

/-- Method-overload grouping for classes
(DeclarationTransformer.applyClassMethodLikeOverloads): a singleton Class
entry with at least one method-name collision has its methods regrouped
and renamed; every other entry passes through. -/
def applyClassMethodLikeOverloads
    (declarationMap : List (String × List IRDeclaration)) :
    List (String × List IRDeclaration) :=
  match declarationMap with
  | [] => []
  | (k, v) :: rest =>
      let tail := applyClassMethodLikeOverloads rest
      match v with
      | [.classDecl c] =>
          let groups := methodGroups c.methods
          let hasOverloads := groups.any (fun g => g.2.length > 1)
          if hasOverloads then
            (k, [.classDecl { c with methods := renameMethodGroups groups }])
              :: tail
          else (k, v) :: tail
      | _ => (k, v) :: tail

/-- Method-overload grouping for interfaces
(DeclarationTransformer.applyInterfaceMethodLikeOverloads), identical to
the class pass but on Interface entries. -/
def applyInterfaceMethodLikeOverloads
    (declarationMap : List (String × List IRDeclaration)) :
    List (String × List IRDeclaration) :=
  match declarationMap with
  | [] => []
  | (k, v) :: rest =>
      let tail := applyInterfaceMethodLikeOverloads rest
      match v with
      | [.interfaceDecl i] =>
          let groups := methodGroups i.methods
          let hasOverloads := groups.any (fun g => g.2.length > 1)
          if hasOverloads then
            (k, [.interfaceDecl
                  { i with methods := renameMethodGroups groups }]) :: tail
          else (k, v) :: tail
      | _ => (k, v) :: tail

/-- Hoisted-interface merge DeclarationTransformer.applyLiteralToInterface:
each hoisted interface is inserted under its generated name; a key already
present in the declaration map is reported as a conflict and the hoisted
entry dropped. -/
def applyLiteralToInterface (m : List (String × List IRDeclaration))
    (hoistedMap : List (String × IRInterfaceDecl))
    (errors : List TranspileException) :
    List (String × List IRDeclaration) × List TranspileException :=
  match hoistedMap with
  | [] => (m, errors)
  | (key, irInterface) :: rest =>
      if (jsMapGet m key).isSome then
        applyLiteralToInterface m rest
          (errors ++ [TranspileException.ofMessage
            ("Declaration conflict: Interface '" ++ key
              ++ "' already exists in declaration map")])
      else
        applyLiteralToInterface
          (jsMapSet m key [.interfaceDecl irInterface]) rest errors

/-- Pipeline DeclarationTransformer.transform: merge the hoisted
interfaces, then apply function, class-method and interface-method
overload grouping in order, returning the final map and the accumulated
errors (the logging branches of the source are omitted; no step of the
pure model throws, so the catch branch is unreachable). -/
def transform (declarationMap : List (String × List IRDeclaration))
    (hoistedMap : List (String × IRInterfaceDecl)) :
    List (String × List IRDeclaration) × List TranspileException :=
  let errors : List TranspileException := []
  let (m1, errors1) := applyLiteralToInterface declarationMap hoistedMap errors
  let m2 := applyFunctionOverloads m1
  let m3 := applyClassMethodLikeOverloads m2
  let m4 := applyInterfaceMethodLikeOverloads m3
  (m4, errors1)

end DeclarationTransformer

/-- Readonly flag of a property shape. -/
def IRProperties.isReadonly : IRProperties → Bool
  | .mk _ _ _ ro _ => ro

/-- Type of a get-accessor shape. -/
def IRGetAccessor.type : IRGetAccessor → IRType
  | .mk _ t _ => t

/-- Final nullability modifier of emitType
(src/engine/emitter/old/type/emit.ts): the question mark is appended at
the outermost emitted type only, and never onto dynamic or void. -/
def applyNullability (nb : Bool) (baseType : String) : String :=
  if nb && !(baseType == "dynamic") && !(baseType == "void") then
    baseType ++ "?"
  else baseType

/-- Well-known reference substitutions of emitType: Array to List, Promise
to Future, Date to DateTime. -/
def substituteTypeName (n : String) : String :=
  if n == "Array" then "List"
  else if n == "Promise" then "Future"
  else if n == "Date" then "DateTime"
  else n

mutual

/-- Shared type-to-text mapping, from emitType of
src/engine/emitter/old/type/emit.ts: primitives map through the fixed
table; arrays and generic references map recursively with the well-known
substitutions; a Union collapses to its sole member text (plus the
nullable marker) when the member texts are all equal, and otherwise
returns early as dynamic annotated with a comment listing the member
texts; tuples become a homogeneous List or List of dynamic; function
types render required parameters first and optional parameters bracketed;
every unhandled kind falls back to dynamic; finally the nullability
marker is applied to the base text (the Union branch bypasses it by
returning early).  Where the source dereferences a missing payload with a
non-null assertion (a node whose kind promises a field it does not carry,
which the resolver never produces) this model renders dynamic instead of
throwing. -/
def emitType (t : IRType) : String :=
  match t with
  | .mk k n nb _ _ ga ut tt _ et _ ps rt _ =>
    match k with
    | .union =>
        (match ut with
         | some l =>
             let uniqueNames := (emitTypeList l).eraseDups
             if uniqueNames.length > 1 then
               "dynamic " ++ "/* "
                 ++ String.intercalate "|" (emitTypeList l) ++ " */"
             else
               (match l with
                | u0 :: _ =>
                    if nb then emitType u0 ++ "?" else emitType u0
                | [] => "dynamic")
         | none => "dynamic")
    | .any => applyNullability nb "dynamic"
    | .unknown => applyNullability nb "dynamic"
    | .never => applyNullability nb "dynamic"
    | .undefined => applyNullability nb "dynamic"
    | .string => applyNullability nb "String"
    | .stringLiteral => applyNullability nb "String"
    | .number => applyNullability nb "num"
    | .numberLiteral => applyNullability nb "num"
    | .bigInt => applyNullability nb "BigInt"
    | .boolean => applyNullability nb "bool"
    | .booleanLiteral => applyNullability nb "bool"
    | .void => applyNullability nb "void"
    | .array =>
        (match et with
         | some e => applyNullability nb ("List<" ++ emitType e ++ ">")
         | none => applyNullability nb "dynamic")
    | .typeReference =>
        let typeName := substituteTypeName n
        (match ga with
         | some (a :: args) =>
             applyNullability nb
               (typeName ++ "<"
                 ++ String.intercalate ", " (emitTypeList (a :: args))
                 ++ ">")
         | _ => applyNullability nb typeName)
    | .tuple =>
        (match tt with
         | some l =>
             (match (emitTypeList l).eraseDups with
              | [] => applyNullability nb "List<dynamic>"
              | [u] => applyNullability nb ("List<" ++ u ++ ">")
              | _ => applyNullability nb "List<dynamic>")
         | none => applyNullability nb "List<dynamic>")
    | .function =>
        (match rt, ps with
         | some r, some params =>
             let retType := emitType r
             let (requiredParams, optionalParams) := emitParamsSplit params
             let paramString :=
               String.intercalate ", " requiredParams
                 ++ (if optionalParams.length > 0 then
                       (if requiredParams.length > 0 then ", " else "")
                         ++ "[" ++ String.intercalate ", " optionalParams
                         ++ "]"
                     else "")
             applyNullability nb (retType ++ " Function(" ++ paramString ++ ")")
         | _, _ => applyNullability nb "dynamic")
    | _ => applyNullability nb "dynamic"
termination_by structural t

/-- Emission of a list of types in order. -/
def emitTypeList : List IRType → List String
  | [] => []
  | t :: ts => emitType t :: emitTypeList ts
termination_by structural l => l

/-- Parameter partition of the Function branch of emitType: required
parameter texts in order, then optional parameter texts in order. -/
def emitParamsSplit : List IRParameter → List String × List String
  | [] => ([], [])
  | .mk _ t io _ :: ps =>
      let mainString := emitType t
      let (req, opt) := emitParamsSplit ps
      if io then (req, mainString :: opt) else (mainString :: req, opt)
termination_by structural l => l

end

/-- Wire-name recovery used by the engine interface emitter: the source
expression method.name.split("_")[0] keeps the characters before the first
underscore (the whole name when it has none). -/
def splitUnderscoreHead (s : String) : String :=
  String.mk (s.data.takeWhile (fun c => !(c == '_')))

/-- Modelled from the spec: returnTypeAliasName of the engine emitter
shared helpers (src/engine/emitter/shared/shared.ts is absent from the
sources provided, only its call sites are); per the shared type-to-text
mapping it renders a type through emitType, and a missing type renders as
the empty string. -/
def returnTypeAliasName : Option IRType → String
  | none => ""
  | some t => emitType t

/-- Modelled from the spec: formatParameterList of the engine emitter
shared helpers renders the comma-separated parameter list, each parameter
as its mapped type text followed by its name. -/
def formatParameterList (params : List IRParameter) : String :=
  String.intercalate ", "
    (params.map (fun p => emitType p.type ++ " " ++ p.name))

/-- Modelled from the spec: formatNamedParameters of the engine emitter
shared helpers renders the braced Dart named-parameter list of a
constructor factory. -/
def formatNamedParameters (params : List IRParameter) : String :=
  "\x7b" ++ String.intercalate ", "
      (params.map (fun p => emitType p.type ++ " " ++ p.name)) ++ "\x7d"

/-- Interface emitter, from emitInterface of
src/engine/emitter/old/interface.ts: the JS and anonymous markers, a
factory class when at least one constructor signature exists (else an
empty abstract class), then an extension block with property
getters/setters, methods each preceded by a wire annotation built from
method.name.split("_")[0], accessors and the generic indexer lines for
index signatures.  The unused debug parameter of the source is omitted. -/
def emitInterface (irInterface : IRInterfaceDecl) (_pfx : String) : String :=
  let nm := irInterface.name
  let header : List String := ["@JS()", "@anonymous"]
  let classPart : List String :=
    match irInterface.constructors with
    | c0 :: _ =>
        ["class " ++ nm ++ "\x7b",
         "  external factory " ++ nm ++ "("
           ++ formatNamedParameters c0.parameters ++ ");",
         "\x7d"]
    | [] => ["abstract class " ++ nm ++ "\x7b\x7d"]
  let extHeader : List String :=
    ["extension " ++ nm ++ "Extension on " ++ nm ++ " \x7b"]
  let propLines : List String :=
    irInterface.properties.flatMap (fun prop =>
      if prop.isReadonly then
        ["  external " ++ emitType prop.type ++ " get " ++ prop.name ++ ";"]
      else
        ["  external " ++ emitType prop.type ++ " get " ++ prop.name ++ ";",
         "  external set " ++ prop.name ++ "(" ++ emitType prop.type
           ++ " value);"])
  let methodLines : List String :=
    irInterface.methods.flatMap (fun method =>
      ["  @JS(\"" ++ splitUnderscoreHead method.name ++ "\")",
       "  external " ++ returnTypeAliasName method.returnType ++ " "
         ++ method.name ++ "(" ++ formatParameterList method.parameters
         ++ ");"])
  let getterLines : List String :=
    irInterface.getAccessors.map (fun getter =>
      "  external " ++ returnTypeAliasName (some getter.type) ++ " get "
        ++ getter.name ++ ";")
  let setterLines : List String :=
    irInterface.setAccessors.map (fun setter =>
      match setter with
      | .mk sn sp _ =>
          "  external set " ++ sn ++ "(" ++ formatParameterList [sp] ++ ");")
  let idxLines : List String :=
    if irInterface.indexSignatures.length > 0 then
      ["  external dynamic operator [](Object key);",
       "  external void operator []=(Object key, dynamic value);"]
    else []
  String.intercalate "\n"
    (header ++ classPart ++ extHeader ++ propLines ++ methodLines
      ++ getterLines ++ setterLines ++ idxLines ++ ["\x7d"])

/-- Statement syntax handled by the declaration pass
(src/engine/passes/declarationPass.ts).  The per-kind parser modules are
external collaborators of the pass, so each statement carries the
declaration (or declarations, for a variable statement) that its parser
returns; class and function declarations may be anonymous, in which case
the processor returns without adding anything; a namespace or module
container carries its name and nested statements; every other statement
kind is unsupported and carries its kind name and position. -/
inductive Stmt where
  | interfaceStmt (name : String) (parsed : IRDeclaration)
  | typeAliasStmt (name : String) (parsed : IRDeclaration)
  | classStmt (name : Option String) (parsed : IRDeclaration)
  | functionStmt (name : Option String) (parsed : IRDeclaration)
  | variableStmt (parsed : List IRDeclaration)
  | enumStmt (name : String) (parsed : IRDeclaration)
  | moduleStmt (name : String) (body : List Stmt)
  | unsupportedStmt (kindName : String) (line : Nat) (col : Nat)

namespace DeclarationPassProcessor

/-- Declaration-map insertion shared by every processor of the pass: push
onto the existing list at the qualified name, or start a new entry. -/
def addDecl (m : List (String × List IRDeclaration)) (fullName : String)
    (d : IRDeclaration) : List (String × List IRDeclaration) :=
  match jsMapGet m fullName with
  | some l => jsMapSet m fullName (l ++ [d])
  | none => jsMapSet m fullName [d]

/-- Variable-statement loop of processVariableStatement: each parsed
variable is inserted under its module-prefixed name. -/
def addVariables (m : List (String × List IRDeclaration))
    (modulePrefix : String) : List IRDeclaration →
      List (String × List IRDeclaration)
  | [] => m
  | d :: ds => addVariables (addDecl m (modulePrefix ++ d.name) d)
      modulePrefix ds

mutual

/-- Statement dispatch
DeclarationPassProcessor.processStatementDeclaration: named declarations
are parsed and inserted under their module-prefixed qualified name
(anonymous classes and functions are skipped), a module declaration is
walked recursively with the extended prefix and a fresh error array, and
any other statement kind throws the UNSUPPORTED_STATEMENT
TranspileException. -/
def processStatementDeclaration (s : Stmt)
    (declarationMap : List (String × List IRDeclaration))
    (modulePrefix : String) (filePath : String) :
    Except TranspileException (List (String × List IRDeclaration)) :=
  match s with
  | .interfaceStmt n parsed =>
      .ok (addDecl declarationMap (modulePrefix ++ n) parsed)
  | .typeAliasStmt n parsed =>
      .ok (addDecl declarationMap (modulePrefix ++ n) parsed)
  | .classStmt n parsed =>
      (match n with
       | none => .ok declarationMap
       | some nm => .ok (addDecl declarationMap (modulePrefix ++ nm) parsed))
  | .functionStmt n parsed =>
      (match n with
       | none => .ok declarationMap
       | some nm => .ok (addDecl declarationMap (modulePrefix ++ nm) parsed))
  | .variableStmt parsed =>
      .ok (addVariables declarationMap modulePrefix parsed)
  | .enumStmt n parsed =>
      .ok (addDecl declarationMap (modulePrefix ++ n) parsed)
  | .moduleStmt n body =>
      .ok (processModuleDeclaration n body declarationMap modulePrefix
        filePath)
  | .unsupportedStmt kindName line col =>
      .error
        { message := "Unsupported statement kind: " ++ kindName,
          code := some "UNSUPPORTED_STATEMENT",
          sourceFile := some filePath,
          line := some line,
          column := some col }
termination_by 2 * sizeOf s

/-- Statement loop DeclarationPassProcessor.walkStatements: each statement
is processed under a try that appends any thrown TranspileException to the
error array and continues with the next statement. -/
def walkStatements (statements : List Stmt)
    (declarationMap : List (String × List IRDeclaration))
    (errors : List TranspileException) (modulePrefix : String)
    (filePath : String) :
    List (String × List IRDeclaration) × List TranspileException :=
  match statements with
  | [] => (declarationMap, errors)
  | s :: rest =>
      match processStatementDeclaration s declarationMap modulePrefix
          filePath with
      | .ok m' => walkStatements rest m' errors modulePrefix filePath
      | .error e =>
          walkStatements rest declarationMap (errors ++ [e]) modulePrefix
            filePath
termination_by 2 * sizeOf statements

/-- Module walk DeclarationPassProcessor.processModuleDeclaration: the
nested statements are walked with the prefix extended by the module name
and a dot, and with a fresh empty array in the position of the error
accumulator, whose contents are discarded; only the mutated declaration
map survives. -/
def processModuleDeclaration (moduleName : String) (body : List Stmt)
    (declarationMap : List (String × List IRDeclaration))
    (modulePrefix : String) (filePath : String) :
    List (String × List IRDeclaration) :=
  let newModulePrefix := modulePrefix ++ moduleName ++ "."
  (walkStatements body declarationMap [] newModulePrefix filePath).1
termination_by 2 * sizeOf body + 1

end

/-- File entry point DeclarationPassProcessor.processFile: walk the
top-level statements into a fresh map and error list (the logging tail of
the source is omitted; walkStatements catches every statement error, so
the surrounding try adds nothing in this pure model). -/
def processFile (statements : List Stmt) (modulePrefix : String)
    (filePath : String) :
    List (String × List IRDeclaration) × List TranspileException :=
  walkStatements statements [] [] modulePrefix filePath

end DeclarationPassProcessor

/-- Lookup after set at the same key yields the new value. -/
theorem jsMapGet_set_self {κ α : Type} [BEq κ] [LawfulBEq κ]
    (m : List (κ × α)) (k : κ) (v : α) :
    jsMapGet (jsMapSet m k v) k = some v := by
  induction m with
  | nil => simp [jsMapGet, jsMapSet, List.find?]
  | cons e es ih =>
      by_cases h : e.1 == k
      · simp [jsMapSet, h, jsMapGet, List.find?]
      · simp only [jsMapSet, h]
        simpa [jsMapGet, List.find?, h] using ih

/-- Setting an absent key appends the entry at the end. -/
theorem jsMapSet_append {κ α : Type} [BEq κ] [LawfulBEq κ]
    (m : List (κ × α)) (k : κ) (v : α) (h : jsMapGet m k = none) :
    jsMapSet m k v = m ++ [(k, v)] := by
  induction m with
  | nil => simp [jsMapSet]
  | cons e es ih =>
      by_cases he : e.1 == k
      · exfalso
        simp [jsMapGet, List.find?, he] at h
      · have h' : jsMapGet es k = none := by
          simpa [jsMapGet, List.find?, he] using h
        simp [jsMapSet, he, ih h']

/-- A successful lookup comes from an entry of the list with that key. -/
theorem jsMapGet_mem {κ α : Type} [BEq κ] [LawfulBEq κ]
    (m : List (κ × α)) (k : κ) (v : α) (h : jsMapGet m k = some v) :
    (k, v) ∈ m := by
  induction m with
  | nil => simp [jsMapGet, List.find?] at h
  | cons e es ih =>
      simp only [jsMapGet, List.find?] at h
      by_cases he : e.1 == k
      · simp only [he] at h
        have hk : e.1 = k := by exact eq_of_beq he
        cases e with
        | mk k' v' =>
            simp at h
            simp only [List.mem_cons]
            left
            simp only at hk
            rw [← hk, h]
      · simp only [he] at h
        exact List.mem_cons_of_mem _ (ih (by simpa [jsMapGet] using h))

/-- The emitted text list is the map of emitType. -/
theorem emitTypeList_eq_map (l : List IRType) :
    emitTypeList l = l.map emitType := by
  induction l with
  | nil => simp [emitTypeList]
  | cons t ts ih => simp [emitTypeList, ih]

/-- Reference node returned by TypeVisitor.hoistLiteral: a TypeReference
with the generated name and an empty generic-argument list. -/
def anonRef (nm : String) : IRType :=
  .mk .typeReference nm false none none (some []) none none none none none
    none none none

/-- C1: for every pair of anonymous record shapes that are structurally
identical after member-order normalization (equal canonicalizeLiteral
forms), hoisting through TypeVisitor.hoistLiteral from a state that has
not seen the shape produces exactly one new registry entry (in both the
seenLiterals and the hoistedInterfaces tables) under one generated name
AnonInterface$<counter>, and both occurrences are replaced by a reference
to that same name, the second call leaving the state untouched. -/
theorem c1_hoist_dedup_unique (vs : VState) (L1 L2 : IRLiteral)
    (hcanon : canonicalizeLiteral L1 = canonicalizeLiteral L2)
    (hnew : jsMapGet vs.seenLiterals (serLit (canonicalizeLiteral L1))
      = none) :
    ∃ nm,
      nm = "AnonInterface$" ++ toString vs.anonCount
      ∧ (hoistLiteral L1 vs).1 = anonRef nm
      ∧ (hoistLiteral L2 (hoistLiteral L1 vs).2).1 = anonRef nm
      ∧ (hoistLiteral L2 (hoistLiteral L1 vs).2).2 = (hoistLiteral L1 vs).2
      ∧ (hoistLiteral L1 vs).2.seenLiterals
          = vs.seenLiterals ++ [(serLit (canonicalizeLiteral L1), nm)]
      ∧ (hoistLiteral L1 vs).2.hoistedInterfaces
          = jsMapSet vs.hoistedInterfaces nm (canonicalizeLiteral L1)
      ∧ (hoistLiteral L1 vs).2.anonCount = vs.anonCount + 1 := by
  have h1 : hoistLiteral L1 vs
      = (anonRef ("AnonInterface$" ++ toString vs.anonCount),
         { vs with
           anonCount := vs.anonCount + 1,
           seenLiterals := jsMapSet vs.seenLiterals
             (serLit (canonicalizeLiteral L1))
             ("AnonInterface$" ++ toString vs.anonCount),
           hoistedInterfaces := jsMapSet vs.hoistedInterfaces
             ("AnonInterface$" ++ toString vs.anonCount)
             (canonicalizeLiteral L1) }) := by
    simp [hoistLiteral, hnew, anonRef]
  have h2 : hoistLiteral L2 (hoistLiteral L1 vs).2
      = (anonRef ("AnonInterface$" ++ toString vs.anonCount),
         (hoistLiteral L1 vs).2) := by
    rw [h1]
    simp only [hoistLiteral, ← hcanon, jsMapGet_set_self, anonRef]
  refine ⟨"AnonInterface$" ++ toString vs.anonCount, rfl, ?_, ?_, ?_, ?_,
    ?_, ?_⟩
  · rw [h1]
  · rw [h2, h1]
  · rw [h2]
  · rw [h1]
    exact jsMapSet_append _ _ _ hnew
  · rw [h1]
  · rw [h1]

/-- Shape with two primitive properties declared in one order. -/
def c1S1 : IRLiteral :=
  .mk [IRProperties.mk "x" (IRType.base .number "number" false) false false
        false,
       IRProperties.mk "y" (IRType.base .string "string" false) false false
        false] [] [] [] [] []

/-- The same shape with its properties declared in the other order. -/
def c1S2 : IRLiteral :=
  .mk [IRProperties.mk "y" (IRType.base .string "string" false) false false
        false,
       IRProperties.mk "x" (IRType.base .number "number" false) false false
        false] [] [] [] [] []

/-- Record shape holding c1S1 as the type of its property p. -/
def c1Outer : IRLiteral :=
  .mk [IRProperties.mk "p"
        (.mk .typeLiteral "typeLiteral" false none none none none none none
          none (some c1S1) none none none) false false false] [] [] [] [] []

/-- Variable declaration whose type is the record with the shape as a
property type. -/
def c1D1 : IRDeclaration :=
  .variableDecl "v"
    (.mk .typeLiteral "typeLiteral" false none none none none none none
      none (some c1Outer) none none none) false true

/-- Function declaration returning the permuted copy of the shape. -/
def c1D2 : IRDeclaration :=
  .functionDecl "f" []
    (.mk .typeLiteral "typeLiteral" false none none none none none none
      none (some c1S2) none none none)

/-- Witness for C1: the two order-permuted shapes canonicalize equal, are
hoisted once under AnonInterface$1 and both replaced by that reference;
run through visitDeclaration, the shape used as a property type inside a
variable's record and as a function return type yields one entry for the
shape referenced from both places (the enclosing record becomes
AnonInterface$2 whose property p references AnonInterface$1, and the
function return becomes the second reference to AnonInterface$1). -/
theorem c1_hoist_dedup_unique_witness :
    (∃ nm, (hoistLiteral c1S1 initVState).1 = anonRef nm
       ∧ (hoistLiteral c1S2 (hoistLiteral c1S1 initVState).2).1 = anonRef nm
       ∧ (hoistLiteral c1S1 initVState).2.seenLiterals
           = [(serLit (canonicalizeLiteral c1S1), nm)])
  ∧ (visitDeclaration c1D1 initVState).1
      = .variableDecl "v" (anonRef "AnonInterface$2") false true
  ∧ (visitDeclaration c1D2 (visitDeclaration c1D1 initVState).2).1
      = .functionDecl "f" [] (anonRef "AnonInterface$1")
  ∧ (visitDeclaration c1D2
      (visitDeclaration c1D1 initVState).2).2.seenLiterals.length = 2
  ∧ jsMapGet (visitDeclaration c1D2
        (visitDeclaration c1D1 initVState).2).2.hoistedInterfaces
      "AnonInterface$2"
      = some (IRLiteral.mk
          [IRProperties.mk "p" (anonRef "AnonInterface$1") false false
            false] [] [] [] [] []) := by
  refine ⟨?_, rfl, rfl, rfl, rfl⟩
  obtain ⟨nm, hnm, h1, h2, h3, h4, h5, h6⟩ :=
    c1_hoist_dedup_unique initVState c1S1 c1S2 rfl rfl
  exact ⟨nm, h1, h2, by rw [h4]; rfl⟩

/-- C2: for every type-syntax expression, resolution at a recursion depth
beyond the hard bound 15 returns the Any fallback (kind Any, name any, not
nullable), given the cache invariant that every memo entry keyed beyond
the bound already holds that fallback (true of the initial empty cache);
the resolver is total by construction, so no input can make it loop,
overflow or raise. -/
theorem c2_depth_bound (tn : TypeSyntax) (depth : Nat) (st : PState)
    (hc : ∀ e ∈ st.cache, 15 < e.1.2 →
      e.2.kind = TypeKind.any ∧ e.2.name = "any" ∧ e.2.isNullable = false)
    (hd : 15 < depth) :
    (parseType (some tn) depth st).1.kind = TypeKind.any
    ∧ (parseType (some tn) depth st).1.name = "any"
    ∧ (parseType (some tn) depth st).1.isNullable = false := by
  have hun : parseTypeUncached tn depth st
      = (IRType.base .any "any" false,
         { st with cache := (jsMapSet st.cache (synText tn, depth)
             (IRType.base .any "any" false)) }) := by
    simp [parseTypeUncached, hd]
  cases hget : jsMapGet st.cache (synText tn, depth) with
  | none =>
      have hpt : parseType (some tn) depth st = parseTypeUncached tn depth st := by
        simp [parseType, parseTypeNode, hget]
      rw [hpt, hun]
      exact ⟨rfl, rfl, rfl⟩
  | some cached =>
      by_cases hlit : isTypeLiteralSyn tn = true
      · have hpt : parseType (some tn) depth st = parseTypeUncached tn depth st := by
          simp [parseType, parseTypeNode, hget, hlit]
        rw [hpt, hun]
        exact ⟨rfl, rfl, rfl⟩
      · have hpt : parseType (some tn) depth st = (cached, st) := by
          simp [parseType, parseTypeNode, hget, hlit]
        have hmem : ((synText tn, depth), cached) ∈ st.cache :=
          jsMapGet_mem _ _ _ hget
        have htriple := hc _ hmem hd
        rw [hpt]
        exact htriple

/-- Deliberately nested generic expression used by the C2 witness. -/
def c2Deep : TypeSyntax :=
  .typeReference "Promise"
    [.typeReference "Map" [.stringKeyword,
      .typeReference "Promise" [.numberKeyword]]]

/-- Witness for C2: resolving the nested generic expression at depth 16
(beyond the ceiling of 15) from the initial state yields the Any fallback
instead of recursing. -/
theorem c2_depth_bound_witness :
    (parseType (some c2Deep) 16 initPState).1.kind = TypeKind.any
    ∧ (parseType (some c2Deep) 16 initPState).1.name = "any"
    ∧ (parseType (some c2Deep) 16 initPState).1.isNullable = false :=
  c2_depth_bound c2Deep 16 initPState
    (by intro e he _; simp [initPState] at he) (by decide)

/-- Case analysis of hoistRecord: the call returns either the record node
itself or a bare type reference. -/
theorem hoistRecord_cases (val : IRType) (st : PState) :
    (hoistRecord val st).1 = val
    ∨ ∃ nm, (hoistRecord val st).1
        = .mk .typeReference nm false none none none none none none none
            none none none none := by
  cases h : jsMapGet st.hoistedLiterals (serType val) with
  | some nm =>
      by_cases hp : st.parseLiterals
      · left
        simp [hoistRecord, h, hp]
      · right
        exact ⟨nm, by simp [hoistRecord, h, hp]⟩
  | none =>
      by_cases hp : st.parseLiterals
      · left
        simp [hoistRecord, h, hp]
      · right
        exact ⟨"AnonInterface$" ++ toString st.anonInterfaceCount,
          by simp [hoistRecord, h, hp]⟩

/-- The kind of a hoistRecord result on a record node is TypeLiteral or
TypeReference. -/
theorem hoistRecord_kind (val : IRType) (st : PState)
    (hv : val.kind = TypeKind.typeLiteral) :
    (hoistRecord val st).1.kind = TypeKind.typeLiteral
    ∨ (hoistRecord val st).1.kind = TypeKind.typeReference := by
  rcases hoistRecord_cases val st with h | ⟨nm, h⟩
  · left
    rw [h, hv]
  · right
    rw [h]
    rfl

/-- When a hoistRecord result on a record node still has kind TypeLiteral
it is the record node itself, so it keeps its record payload. -/
theorem hoistRecord_payload (val : IRType) (st : PState)
    (hv : val.objectLiteral ≠ none)
    (hk : (hoistRecord val st).1.kind = TypeKind.typeLiteral) :
    (hoistRecord val st).1.objectLiteral ≠ none := by
  rcases hoistRecord_cases val st with h | ⟨nm, h⟩
  · rw [h]
    exact hv
  · rw [h] at hk
    exact absurd hk (by simp [IRType.kind])

/-- C3 amended: resolving a Record node resolves every member group and,
when the parse-literals flag of the context is set (its default, and the
resolver never writes it), returns the Record node unhoisted (kind
TypeLiteral with its record payload, the reference shape arising only with
the flag cleared); but the call is not registry-pure: the registry
interaction leaves the memo cache and the flag alone and, for a shape
absent from the hoisted-literal table, appends the serialized shape under
the fresh name AnonInterface$<counter> and increments the counter, while a
known shape leaves the state unchanged. -/
theorem c3_amended :
    (∀ props meths ctors gets sets idxs d st,
       ((handleTypeLiterals props meths ctors gets sets idxs d st).1.kind
           = TypeKind.typeLiteral
         ∨ (handleTypeLiterals props meths ctors gets sets idxs d st).1.kind
           = TypeKind.typeReference)
       ∧ ((handleTypeLiterals props meths ctors gets sets idxs d st).1.kind
             = TypeKind.typeLiteral →
          (handleTypeLiterals props meths ctors gets sets
            idxs d st).1.objectLiteral ≠ none))
  ∧ (∀ val st, st.parseLiterals = true →
       (hoistRecord val st).1 = val
       ∧ (hoistRecord val st).2.cache = st.cache
       ∧ (hoistRecord val st).2.parseLiterals = st.parseLiterals
       ∧ (jsMapGet st.hoistedLiterals (serType val) = none →
            (hoistRecord val st).2.hoistedLiterals
              = st.hoistedLiterals
                ++ [(serType val,
                     "AnonInterface$" ++ toString st.anonInterfaceCount)]
            ∧ (hoistRecord val st).2.anonInterfaceCount
                = st.anonInterfaceCount + 1)
       ∧ (∀ nm, jsMapGet st.hoistedLiterals (serType val) = some nm →
            (hoistRecord val st).2 = st)) := by
  constructor
  · intro props meths ctors gets sets idxs d st
    simp only [handleTypeLiterals]
    constructor
    · exact hoistRecord_kind _ _ rfl
    · exact hoistRecord_payload _ _ (by simp [IRType.objectLiteral])
  · intro val st hp
    cases h : jsMapGet st.hoistedLiterals (serType val) with
    | some nm =>
        refine ⟨by simp [hoistRecord, h, hp], by simp [hoistRecord, h],
          by simp [hoistRecord, h], ?_, ?_⟩
        · intro hnone
          simp at hnone
        · intro nm' _
          simp [hoistRecord, h]
    | none =>
        refine ⟨by simp [hoistRecord, h, hp], by simp [hoistRecord, h],
          by simp [hoistRecord, h], ?_, ?_⟩
        · intro _
          constructor
          · simp only [hoistRecord, h]
            exact jsMapSet_append _ _ _ h
          · simp [hoistRecord, h]
        · intro nm' hsome
          simp at hsome

/-- Property x of string type used by the C3 record examples. -/
def c3Prop : PropSyntax := .mk "x" (some .stringKeyword) false false

/-- Counterexample for C3 as stated: resolving the inline record type
with the single property x of string type from the initial state bumps the
global anonymous-name counter from 0 to 1 and adds an entry to the global
hoisted-literal table, so the resolver call does not leave the global
registries unchanged. -/
theorem c3_counterexample :
    initPState.anonInterfaceCount = 0
  ∧ initPState.hoistedLiterals = []
  ∧ (handleTypeLiterals [c3Prop] [] [] [] [] [] 0
      initPState).2.anonInterfaceCount = 1
  ∧ (handleTypeLiterals [c3Prop] [] [] [] [] [] 0
      initPState).2.hoistedLiterals ≠ [] := by
  refine ⟨rfl, rfl, ?_, ?_⟩ <;>
    simp [handleTypeLiterals, parsePropsList, parseMethodsList,
      parseCtorsList, parseGetAccList, parseSetAccList, parseIdxList,
      hoistRecord, parseType, parseTypeNode, parseTypeUncached,
      parseTypeSwitch, jsMapGet, jsMapSet, initPState, c3Prop, List.find?]

/-- Witness for the amended C3: on the concrete record with property x
the resolver returns a TypeLiteral or TypeReference kind, and with the
parse-literals flag set (the initial state) hoistRecord returns its input
node unhoisted. -/
theorem c3_amended_witness :
    ((handleTypeLiterals [c3Prop] [] [] [] [] [] 0 initPState).1.kind
        = TypeKind.typeLiteral
      ∨ (handleTypeLiterals [c3Prop] [] [] [] [] [] 0 initPState).1.kind
        = TypeKind.typeReference)
  ∧ (hoistRecord (IRType.base .string "string" false) initPState).1
      = IRType.base .string "string" false :=
  ⟨(c3_amended.1 [c3Prop] [] [] [] [] [] 0 initPState).1,
   (c3_amended.2 (IRType.base .string "string" false) initPState rfl).1⟩

/-- The JSON-round-trip clone map is the identity on declaration lists. -/
theorem mapClone_id (l : List IRDeclaration) :
    l.map DeclarationTransformer.deepCloneIRDeclaration = l := by
  induction l <;> simp_all [DeclarationTransformer.deepCloneIRDeclaration]

/-- C4: a qualified name mapping to two or more declarations that are all
Function declarations has each entry cloned and renamed name_i with the
1-based index following original declaration order; the transformer is a
pure function of its input, so the output is identical across runs on
identical input. -/
theorem c4_overload_rename (m : List (String × List IRDeclaration))
    (k : String) (v : List IRDeclaration)
    (hget : jsMapGet m k = some v) (hlen : 2 ≤ v.length)
    (hall : ∀ e ∈ v, e.kind = IRDeclKind.Function) :
    jsMapGet (DeclarationTransformer.applyFunctionOverloads m) k
      = some (v.mapIdx (fun i e =>
          e.setName (e.name ++ "_" ++ toString (i + 1)))) := by
  induction m with
  | nil => simp [jsMapGet, List.find?] at hget
  | cons e es ih =>
      obtain ⟨k', v'⟩ := e
      by_cases hk : k' == k
      · have hv : v' = v := by
          simpa [jsMapGet, List.find?, hk] using hget
        have hkk : k' = k := eq_of_beq hk
        subst hkk
        obtain ⟨d0, tl, rfl⟩ : ∃ d0 tl, v = d0 :: tl := by
          cases v with
          | nil => simp at hlen
          | cons a b => exact ⟨a, b, rfl⟩
        obtain ⟨d1, rest, rfl⟩ : ∃ d1 rest, tl = d1 :: rest := by
          cases tl with
          | nil => simp at hlen
          | cons a b => exact ⟨a, b, rfl⟩
        subst hv
        have hallb : (d0 :: d1 :: rest).all
            (fun e => e.kind == IRDeclKind.Function) = true := by
          rw [List.all_eq_true]
          intro x hx
          exact beq_iff_eq.mpr (hall x hx)
        simp [DeclarationTransformer.applyFunctionOverloads, hallb,
          DeclarationTransformer.deepCloneIRDeclaration, jsMapGet,
          List.find?, mapClone_id]
      · have hget' : jsMapGet es k = some v := by
          simpa [jsMapGet, List.find?, hk] using hget
        have ihh := ih hget'
        cases v' with
        | nil =>
            simpa [DeclarationTransformer.applyFunctionOverloads] using ihh
        | cons d0 tl =>
            cases tl with
            | nil =>
                simpa [DeclarationTransformer.applyFunctionOverloads,
                  jsMapGet, List.find?, hk] using ihh
            | cons d1 tl2 =>
                by_cases hb : (d0 :: d1 :: tl2).all
                    (fun e => e.kind == IRDeclKind.Function)
                · simpa [DeclarationTransformer.applyFunctionOverloads, hb,
                    jsMapGet, List.find?, hk] using ihh
                · simpa [DeclarationTransformer.applyFunctionOverloads, hb,
                    jsMapGet, List.find?, hk] using ihh

/-- Function declaration named f used by the C4 witness. -/
def c4F : IRDeclaration :=
  .functionDecl "f" [] (IRType.base .void "void" false)

/-- Declaration map with three same-named function declarations. -/
def c4M : List (String × List IRDeclaration) := [("f", [c4F, c4F, c4F])]

/-- Witness for C4: three same-named function declarations receive the
suffixes _1, _2, _3 in declaration order. -/
theorem c4_overload_rename_witness :
    jsMapGet (DeclarationTransformer.applyFunctionOverloads c4M) "f"
      = some [IRDeclaration.functionDecl "f_1" []
                (IRType.base .void "void" false),
              IRDeclaration.functionDecl "f_2" []
                (IRType.base .void "void" false),
              IRDeclaration.functionDecl "f_3" []
                (IRType.base .void "void" false)] := by
  have h := c4_overload_rename c4M "f" [c4F, c4F, c4F] rfl (by decide)
    (by decide)
  exact h.trans (by rfl)

/-- Interface fixture whose methods carry the overload-renamed names
my_func_1 and my_func_2 of an original method my_func. -/
def c5Iface : IRInterfaceDecl :=
  { name := "I", extendsList := [], properties := [],
    methods :=
      [.mk "my_func_1" [] (some (IRType.base .number "number" false)) false
        false,
       .mk "my_func_2" [] (some (IRType.base .number "number" false)) false
        false],
    constructors := [], getAccessors := [], setAccessors := [],
    indexSignatures := [] }

/-- C5 (code bug): the wire annotation emitted for an overload-renamed
interface method is method.name.split("_")[0], which for the original
name my_func (renamed my_func_1, my_func_2) yields my instead of the
required original external name my_func: the emitted extension block
annotates both methods with JS("my").  The sibling class emitter keys its
annotations by the original grouped name and is not affected. -/
theorem c5_wire_name_truncated :
    splitUnderscoreHead "my_func_1" = "my"
  ∧ splitUnderscoreHead "my_func_2" = "my"
  ∧ "my" ≠ "my_func"
  ∧ emitInterface c5Iface ""
      = "@JS()\n@anonymous\nabstract class I\x7b\x7d\nextension IExtension on I \x7b\n  @JS(\"my\")\n  external num my_func_1();\n  @JS(\"my\")\n  external num my_func_2();\n\x7d" := by
  refine ⟨rfl, rfl, by decide, ?_⟩
  rfl

/-- A mixed multi-declaration group passes through the function-overload
step untouched. -/
theorem afo_preserves_mixed (m : List (String × List IRDeclaration))
    (k : String) (v : List IRDeclaration)
    (hget : jsMapGet m k = some v) (hlen : 2 ≤ v.length)
    (hmix : v.all (fun e => e.kind == IRDeclKind.Function) = false) :
    jsMapGet (DeclarationTransformer.applyFunctionOverloads m) k
      = some v := by
  induction m with
  | nil => simp [jsMapGet, List.find?] at hget
  | cons e es ih =>
      obtain ⟨k', v'⟩ := e
      by_cases hk : k' == k
      · have hv : v' = v := by
          simpa [jsMapGet, List.find?, hk] using hget
        have hkk : k' = k := eq_of_beq hk
        subst hkk
        obtain ⟨d0, tl, rfl⟩ : ∃ d0 tl, v = d0 :: tl := by
          cases v with
          | nil => simp at hlen
          | cons a b => exact ⟨a, b, rfl⟩
        obtain ⟨d1, rest, rfl⟩ : ∃ d1 rest, tl = d1 :: rest := by
          cases tl with
          | nil => simp at hlen
          | cons a b => exact ⟨a, b, rfl⟩
        subst hv
        simp [DeclarationTransformer.applyFunctionOverloads, hmix,
          jsMapGet, List.find?]
      · have hget' : jsMapGet es k = some v := by
          simpa [jsMapGet, List.find?, hk] using hget
        have ihh := ih hget'
        cases v' with
        | nil =>
            simpa [DeclarationTransformer.applyFunctionOverloads] using ihh
        | cons d0 tl =>
            cases tl with
            | nil =>
                simpa [DeclarationTransformer.applyFunctionOverloads,
                  jsMapGet, List.find?, hk] using ihh
            | cons d1 tl2 =>
                by_cases hb : (d0 :: d1 :: tl2).all
                    (fun e => e.kind == IRDeclKind.Function)
                · simpa [DeclarationTransformer.applyFunctionOverloads, hb,
                    jsMapGet, List.find?, hk] using ihh
                · simpa [DeclarationTransformer.applyFunctionOverloads, hb,
                    jsMapGet, List.find?, hk] using ihh

/-- The class-method-overload step keeps every entry key in place. -/
theorem acm_cons (k' : String) (v' : List IRDeclaration)
    (es : List (String × List IRDeclaration)) :
    ∃ w, DeclarationTransformer.applyClassMethodLikeOverloads
        ((k', v') :: es)
      = (k', w) :: DeclarationTransformer.applyClassMethodLikeOverloads es := by
  rcases v' with _ | ⟨d0, tl⟩
  · exact ⟨_, rfl⟩
  · rcases tl with _ | ⟨d1, tl2⟩
    · cases d0 with
      | classDecl c =>
          by_cases hov : (DeclarationTransformer.methodGroups
              c.methods).any (fun g => g.2.length > 1)
          · refine ⟨[IRDeclaration.classDecl
              { c with methods := (DeclarationTransformer.renameMethodGroups
                  (DeclarationTransformer.methodGroups c.methods)) }], ?_⟩
            simp [DeclarationTransformer.applyClassMethodLikeOverloads, hov]
          · refine ⟨[IRDeclaration.classDecl c], ?_⟩
            simp [DeclarationTransformer.applyClassMethodLikeOverloads, hov]
      | interfaceDecl i => exact ⟨_, rfl⟩
      | typeAliasDecl n t => exact ⟨_, rfl⟩
      | functionDecl n ps rt => exact ⟨_, rfl⟩
      | variableDecl n t ro cc => exact ⟨_, rfl⟩
      | enumDecl n ms => exact ⟨_, rfl⟩
    · cases d0 <;> exact ⟨_, rfl⟩

/-- The interface-method-overload step keeps every entry key in place. -/
theorem aim_cons (k' : String) (v' : List IRDeclaration)
    (es : List (String × List IRDeclaration)) :
    ∃ w, DeclarationTransformer.applyInterfaceMethodLikeOverloads
        ((k', v') :: es)
      = (k', w)
          :: DeclarationTransformer.applyInterfaceMethodLikeOverloads es := by
  rcases v' with _ | ⟨d0, tl⟩
  · exact ⟨_, rfl⟩
  · rcases tl with _ | ⟨d1, tl2⟩
    · cases d0 with
      | interfaceDecl i =>
          by_cases hov : (DeclarationTransformer.methodGroups
              i.methods).any (fun g => g.2.length > 1)
          · refine ⟨[IRDeclaration.interfaceDecl
              { i with methods := (DeclarationTransformer.renameMethodGroups
                  (DeclarationTransformer.methodGroups i.methods)) }], ?_⟩
            simp [DeclarationTransformer.applyInterfaceMethodLikeOverloads,
              hov]
          · refine ⟨[IRDeclaration.interfaceDecl i], ?_⟩
            simp [DeclarationTransformer.applyInterfaceMethodLikeOverloads,
              hov]
      | classDecl c => exact ⟨_, rfl⟩
      | typeAliasDecl n t => exact ⟨_, rfl⟩
      | functionDecl n ps rt => exact ⟨_, rfl⟩
      | variableDecl n t ro cc => exact ⟨_, rfl⟩
      | enumDecl n ms => exact ⟨_, rfl⟩
    · cases d0 <;> exact ⟨_, rfl⟩

/-- A multi-declaration group passes through the class-method-overload
step untouched (that step only rewrites singleton Class entries). -/
theorem acm_preserves_multi (m : List (String × List IRDeclaration))
    (k : String) (v : List IRDeclaration)
    (hget : jsMapGet m k = some v) (hlen : 2 ≤ v.length) :
    jsMapGet (DeclarationTransformer.applyClassMethodLikeOverloads m) k
      = some v := by
  induction m with
  | nil => simp [jsMapGet, List.find?] at hget
  | cons e es ih =>
      obtain ⟨k', v'⟩ := e
      by_cases hk : k' == k
      · have hv : v' = v := by
          simpa [jsMapGet, List.find?, hk] using hget
        have hkk : k' = k := eq_of_beq hk
        subst hkk
        obtain ⟨d0, tl, rfl⟩ : ∃ d0 tl, v = d0 :: tl := by
          cases v with
          | nil => simp at hlen
          | cons a b => exact ⟨a, b, rfl⟩
        obtain ⟨d1, rest, rfl⟩ : ∃ d1 rest, tl = d1 :: rest := by
          cases tl with
          | nil => simp at hlen
          | cons a b => exact ⟨a, b, rfl⟩
        subst hv
        simp [DeclarationTransformer.applyClassMethodLikeOverloads,
          jsMapGet, List.find?]
      · have hget' : jsMapGet es k = some v := by
          simpa [jsMapGet, List.find?, hk] using hget
        have ihh := ih hget'
        obtain ⟨w, hw⟩ := acm_cons k' v' es
        rw [hw]
        simpa [jsMapGet, List.find?, hk] using ihh

/-- A multi-declaration group passes through the interface-method-overload
step untouched (that step only rewrites singleton Interface entries). -/
theorem aim_preserves_multi (m : List (String × List IRDeclaration))
    (k : String) (v : List IRDeclaration)
    (hget : jsMapGet m k = some v) (hlen : 2 ≤ v.length) :
    jsMapGet (DeclarationTransformer.applyInterfaceMethodLikeOverloads m) k
      = some v := by
  induction m with
  | nil => simp [jsMapGet, List.find?] at hget
  | cons e es ih =>
      obtain ⟨k', v'⟩ := e
      by_cases hk : k' == k
      · have hv : v' = v := by
          simpa [jsMapGet, List.find?, hk] using hget
        have hkk : k' = k := eq_of_beq hk
        subst hkk
        obtain ⟨d0, tl, rfl⟩ : ∃ d0 tl, v = d0 :: tl := by
          cases v with
          | nil => simp at hlen
          | cons a b => exact ⟨a, b, rfl⟩
        obtain ⟨d1, rest, rfl⟩ : ∃ d1 rest, tl = d1 :: rest := by
          cases tl with
          | nil => simp at hlen
          | cons a b => exact ⟨a, b, rfl⟩
        subst hv
        simp [DeclarationTransformer.applyInterfaceMethodLikeOverloads,
          jsMapGet, List.find?]
      · have hget' : jsMapGet es k = some v := by
          simpa [jsMapGet, List.find?, hk] using hget
        have ihh := ih hget'
        obtain ⟨w, hw⟩ := aim_cons k' v' es
        rw [hw]
        simpa [jsMapGet, List.find?, hk] using ihh

/-- Interface declaration named A used by the C6 mixed group. -/
def c6Iface : IRDeclaration :=
  .interfaceDecl
    { name := "A", extendsList := [], properties := [], methods := [],
      constructors := [], getAccessors := [], setAccessors := [],
      indexSignatures := [] }

/-- Variable declaration named A used by the C6 mixed group. -/
def c6Var : IRDeclaration :=
  .variableDecl "A" (IRType.base .number "number" false) false false

/-- Counterexample for C6 as stated: for the qualified name A carrying an
Interface and a Variable, the transformer preserves both entries but its
error list is empty, so the ambiguity is not reported as a diagnostic. -/
theorem c6_counterexample :
    (DeclarationTransformer.transform [("A", [c6Iface, c6Var])] []).2 = []
  ∧ jsMapGet (DeclarationTransformer.transform [("A", [c6Iface, c6Var])]
        []).1 "A" = some [c6Iface, c6Var] := by
  exact ⟨rfl, rfl⟩

/-- C6 amended: a qualified name carrying two or more declarations of
mixed kinds is never silently dropped by the transformer (every entry of
the group survives unchanged in the output map), but the ambiguity is not
reported: with no hoisted interfaces to merge, the transformer returns an
empty error list. -/
theorem c6_amended (m : List (String × List IRDeclaration)) (k : String)
    (v : List IRDeclaration) (hget : jsMapGet m k = some v)
    (hlen : 2 ≤ v.length)
    (hmix : v.all (fun e => e.kind == IRDeclKind.Function) = false) :
    jsMapGet (DeclarationTransformer.transform m []).1 k = some v
  ∧ (DeclarationTransformer.transform m []).2 = [] := by
  have h0 : DeclarationTransformer.transform m []
      = (DeclarationTransformer.applyInterfaceMethodLikeOverloads
          (DeclarationTransformer.applyClassMethodLikeOverloads
            (DeclarationTransformer.applyFunctionOverloads m)), []) := rfl
  rw [h0]
  refine ⟨?_, rfl⟩
  have h1 := afo_preserves_mixed m k v hget hlen hmix
  have h2 := acm_preserves_multi _ k v h1 hlen
  exact aim_preserves_multi _ k v h2 hlen

/-- Witness for the amended C6: the concrete Interface-plus-Variable group
under the name A survives transformation intact while the error list stays
empty. -/
theorem c6_amended_witness :
    jsMapGet (DeclarationTransformer.transform [("A", [c6Iface, c6Var])]
        []).1 "A" = some [c6Iface, c6Var]
  ∧ (DeclarationTransformer.transform [("A", [c6Iface, c6Var])] []).2
      = [] :=
  c6_amended [("A", [c6Iface, c6Var])] "A" [c6Iface, c6Var] rfl
    (by decide) (by decide)

/-- Counterexample for C7 as stated: a union whose members are exactly the
literal null and the undefined keyword resolves to a Union node with an
empty member list and the nullable flag set, not to the Any type the
claim requires for the zero-remaining-members case. -/
theorem c7_counterexample :
    (handleUnionType [.literalType .nullLit, .undefinedKeyword] 0
        initPState).1.kind = TypeKind.union
  ∧ (handleUnionType [.literalType .nullLit, .undefinedKeyword] 0
        initPState).1.kind ≠ TypeKind.any
  ∧ (handleUnionType [.literalType .nullLit, .undefinedKeyword] 0
        initPState).1.isNullable = true
  ∧ (handleUnionType [.literalType .nullLit, .undefinedKeyword] 0
        initPState).1.unionTypes = some [] := by
  refine ⟨?_, ?_, ?_, ?_⟩ <;>
    simp [handleUnionType, parseTypeList, isNullOrUndefined, initPState,
      IRType.kind, IRType.isNullable, IRType.unionTypes]

/-- C7 amended: union resolution removes the literal null and undefined
members, sets the nullable flag exactly when such a member was present,
resolves the remaining members at depth + 1, and always returns a Union
node — when zero members remain the node has an empty member list (with
the nullable flag), rather than the Any type; in particular string|null
resolves to a nullable Union whose sole member is the string type, not a
dynamic fallback. -/
theorem c7_amended (unionNodes : List TypeSyntax) (d : Nat) (st : PState) :
    ((handleUnionType unionNodes d st).1.isNullable
        = unionNodes.any isNullOrUndefined
    ∧ (handleUnionType unionNodes d st).1.kind = TypeKind.union
    ∧ (handleUnionType unionNodes d st).1.unionTypes
        = some (parseTypeList
            (unionNodes.filter (fun n => !(isNullOrUndefined n))) (d + 1)
            st).1
    ∧ (handleUnionType unionNodes d st).2
        = (parseTypeList
            (unionNodes.filter (fun n => !(isNullOrUndefined n))) (d + 1)
            st).2)
  ∧ (parseType (some (.unionType [.stringKeyword, .literalType .nullLit]))
        0 initPState).1
      = .mk .union "union" true none none none
          (some [IRType.base .string "string" false]) none none none none
          none none none := by
  constructor
  · refine ⟨?_, ?_, ?_, ?_⟩ <;>
      simp [handleUnionType, IRType.kind, IRType.isNullable,
        IRType.unionTypes]
  · simp [parseType, parseTypeNode, parseTypeUncached, parseTypeSwitch,
      handleUnionType, parseTypeList, jsMapGet, jsMapSet, initPState,
      isNullOrUndefined, isTypeLiteralSyn]

/-- Member whose source text is null or undefined (dropped by the
intersection handler, recording nullability). -/
def isNullUndefinedText (t : TypeSyntax) : Bool :=
  synText t == "null" || synText t == "undefined"

/-- Member whose source text is never (forces a Never result). -/
def isNeverText (t : TypeSyntax) : Bool := synText t == "never"

/-- Member whose source text is void (dropped by the intersection
handler). -/
def isVoidText (t : TypeSyntax) : Bool := synText t == "void"

/-- Member kept and resolved by the intersection handler. -/
def keepInIntersection (t : TypeSyntax) : Bool :=
  !(isNullUndefinedText t || isNeverText t || isVoidText t)

/-- The member loop of handleIntersectionType records exactly whether some
member reads null or undefined and whether some member reads never, and
resolves exactly the kept members, in order, at depth + 1. -/
theorem intersectLoop_spec (l : List TypeSyntax) (d : Nat) (st : PState) :
    intersectLoop l d st
      = (l.any isNullUndefinedText, l.any isNeverText,
         (parseTypeList (l.filter keepInIntersection) (d + 1) st).1,
         (parseTypeList (l.filter keepInIntersection) (d + 1) st).2) := by
  induction l generalizing st with
  | nil => simp [intersectLoop, parseTypeList]
  | cons t ts ih =>
      by_cases hnu : isNullUndefinedText t
      · have hkeep : keepInIntersection t = false := by
          simp [keepInIntersection, hnu]
        have hnev : isNeverText t = false := by
          rcases (by simpa [isNullUndefinedText] using hnu :
            synText t = "null" ∨ synText t = "undefined") with h | h <;>
            simp [isNeverText, h]
        simp [intersectLoop, show (synText t == "null"
            || synText t == "undefined") = true by
            simpa [isNullUndefinedText] using hnu,
          ih, hkeep, hnu, hnev]
      · by_cases hnev : isNeverText t
        · have hkeep : keepInIntersection t = false := by
            simp [keepInIntersection, hnev]
          have hnu2 : (synText t == "null" || synText t == "undefined")
              = false := by
            simpa [isNullUndefinedText] using hnu
          simp [intersectLoop, hnu2,
            show (synText t == "never") = true by
              simpa [isNeverText] using hnev,
            ih, hkeep, hnu, hnev]
        · by_cases hv : isVoidText t
          · have hkeep : keepInIntersection t = false := by
              simp [keepInIntersection, hv]
            have hnu2 : (synText t == "null" || synText t == "undefined")
                = false := by
              simpa [isNullUndefinedText] using hnu
            have hnev2 : (synText t == "never") = false := by
              simpa [isNeverText] using hnev
            simp [intersectLoop, hnu2, hnev2,
              show (synText t == "void") = true by
                simpa [isVoidText] using hv,
              ih, hkeep, hnu, hnev]
          · have hkeep : keepInIntersection t = true := by
              simp [keepInIntersection, hnu, hnev, hv]
            have hnu2 : (synText t == "null" || synText t == "undefined")
                = false := by
              simpa [isNullUndefinedText] using hnu
            have hnev2 : (synText t == "never") = false := by
              simpa [isNeverText] using hnev
            have hv2 : (synText t == "void") = false := by
              simpa [isVoidText] using hv
            simp [intersectLoop, hnu2, hnev2, hv2, ih, hkeep, hnu, hnev,
              parseTypeList]

/-- C8: intersection resolution drops null, undefined and void members
(recording nullability from the null and undefined ones), returns Never
whenever a never member is present, resolves the kept members at
depth + 1, yields Any carrying the recorded nullability when none remain,
collapses to the single remaining member with its nullable flag OR-ed when
exactly one remains, and otherwise returns an Intersection node of the
resolved members. -/
theorem c8_intersection_spec (rawTypes : List TypeSyntax) (d : Nat)
    (st : PState) :
    handleIntersectionType rawTypes d st
      = ((if rawTypes.any isNeverText then
            IRType.base .never "Never" (rawTypes.any isNullUndefinedText)
          else
            match (parseTypeList (rawTypes.filter keepInIntersection)
                (d + 1) st).1 with
            | [] => IRType.base .any "any"
                (rawTypes.any isNullUndefinedText)
            | [x] => x.orNullable (rawTypes.any isNullUndefinedText)
            | irs => .mk .intersection "intersection"
                (rawTypes.any isNullUndefinedText) none none none none
                none (some irs) none none none none none),
         (parseTypeList (rawTypes.filter keepInIntersection) (d + 1)
           st).2) := by
  simp only [handleIntersectionType, intersectLoop_spec]
  split
  · rfl
  · split <;> simp_all

/-- C9: a resolved Union node whose members emit more than one distinct
text is emitted as dynamic annotated with a comment listing every
member's text; when the member texts collapse to one unique text the
union is emitted as its first member's text with the nullable marker
appended exactly when the union is nullable (the source indexes the
member list, so the node is taken with at least one member, as the
resolver always produces for a union that can reach emission). -/
theorem c9_union_emit (nb : Bool) (u0 : IRType) (us : List IRType) :
    (1 < ((u0 :: us).map emitType).eraseDups.length →
       emitType (.mk .union "union" nb none none none (some (u0 :: us))
           none none none none none none none)
         = "dynamic " ++ "/* "
             ++ String.intercalate "|" ((u0 :: us).map emitType) ++ " */")
  ∧ (((u0 :: us).map emitType).eraseDups.length ≤ 1 →
       emitType (.mk .union "union" nb none none none (some (u0 :: us))
           none none none none none none none)
         = emitType u0 ++ (if nb then "?" else "")) := by
  constructor
  · intro h
    simp only [emitType]
    rw [emitTypeList_eq_map, if_pos h]
  · intro h
    simp only [emitType]
    rw [emitTypeList_eq_map, if_neg (by omega)]
    cases nb <;> simp

/-- Witness for C9: string|number emits the dynamic fallback annotated
with both alternatives, and a nullable union of just string emits the
nullable string text. -/
theorem c9_union_emit_witness :
    emitType (.mk .union "union" false none none none
        (some [IRType.base .string "string" false,
               IRType.base .number "number" false]) none none none none
        none none none)
      = "dynamic /* String|num */"
  ∧ emitType (.mk .union "union" true none none none
        (some [IRType.base .string "string" false]) none none none none
        none none none)
      = "String?" := by
  constructor
  · have h := (c9_union_emit false (IRType.base .string "string" false)
      [IRType.base .number "number" false]).1 (by decide)
    exact h.trans (by rfl)
  · have h := (c9_union_emit true (IRType.base .string "string" false)
      []).2 (by decide)
    exact h.trans (by rfl)

/-- C10: an error raised by a statement nested inside a namespace or
module container never reaches the error list of the declaration pass —
processing a module statement contributes no errors whatever its body
contains, because the recursive walk receives a fresh, discarded error
array — while an unsupported statement at top level does surface as the
UNSUPPORTED_STATEMENT diagnostic. -/
theorem c10_nested_errors_discarded (n : String) (body : List Stmt)
    (m : List (String × List IRDeclaration))
    (errs : List TranspileException) (mp fp : String) :
    (DeclarationPassProcessor.walkStatements [Stmt.moduleStmt n body] m
        errs mp fp).2 = errs
  ∧ (∀ kindName line col,
      (DeclarationPassProcessor.walkStatements
          [Stmt.unsupportedStmt kindName line col] m errs mp fp).2
        = errs ++ [{ message := "Unsupported statement kind: " ++ kindName,
                     code := some "UNSUPPORTED_STATEMENT",
                     sourceFile := some fp, line := some line,
                     column := some col }]) := by
  constructor
  · simp [DeclarationPassProcessor.walkStatements,
      DeclarationPassProcessor.processStatementDeclaration]
  · intro kindName line col
    simp [DeclarationPassProcessor.walkStatements,
      DeclarationPassProcessor.processStatementDeclaration]
